import Mathlib

/-!
Verification of the synchronization core of a community-management bot
(`libraries/group_sync_services.py`, `libraries/services/*.py` and the
client helpers they call).  Python strings are modelled as `List Char`,
dictionaries as insertion-ordered association lists, and every external
HTTP client as a record of pure functions (an environment).  The service
functions are translated statement by statement from the Python source.
-/

namespace CM

/-- Strings are modelled as lists of characters. -/
abbrev Str := List Char

/-- Python `str.lower()` (ASCII case folding is all the code relies on). -/
def lowerStr (s : Str) : Str := s.map Char.toLower

/-- The literal `{base_name}` placeholder used by every name pattern. -/
def placeholder : Str := "{base_name}".toList

/-- Index of the first occurrence of `sep` as a contiguous substring of `s`,
scanning left to right: the search that Python's `in`, `split` and
`replace`/`format` all perform. -/
def firstOcc (sep : Str) : Str → Option Nat
  | [] => if sep = [] then some 0 else none
  | c :: t => if sep.isPrefixOf (c :: t) then some 0 else (firstOcc sep t).map (· + 1)

/-- Python's substring test `sep in s`. -/
def containsSub (sep s : Str) : Bool := (firstOcc sep s).isSome

/-- `_extract_base_name` from `libraries/services/mattermost.py`: split the
pattern at the placeholder into a prefix and a suffix (the suffix is the text
up to the next occurrence, exactly as `str.split` produces `parts[1]`), then
match and slice the observed name. -/
def extractBaseName (actual pattern : Str) : Option Str :=
  match firstOcc placeholder pattern with
  | none => none
  | some i =>
    let pre := pattern.take i
    let rest := pattern.drop (i + placeholder.length)
    let suf := match firstOcc placeholder rest with
      | none => rest
      | some j => rest.take j
    if pre.isPrefixOf actual && suf.isSuffixOf actual then
      if actual.length < pre.length + suf.length then none
      else if suf = [] then some (actual.drop pre.length)
      else some ((actual.take (actual.length - suf.length)).drop pre.length)
    else none

/-- Fuel-bounded substitution loop: each step replaces the first remaining
occurrence and continues after the inserted text, as Python `str.replace` /
`format` do.  Every step consumes at least the placeholder (11 characters), so
`pattern.length` is always enough fuel and the fuel never runs out. -/
def renderAux (s : Str) : Nat → Str → Str
  | 0, pattern => pattern
  | fuel + 1, pattern =>
    match firstOcc placeholder pattern with
    | none => pattern
    | some i =>
      pattern.take i ++ s ++ renderAux s fuel (pattern.drop (i + placeholder.length))

/-- Literal substitution of every `{base_name}` occurrence: what
`pattern.format(base_name=s)` computes on the repository's patterns, whose
only replacement field is `{base_name}`. -/
def renderPattern (pattern s : Str) : Str :=
  renderAux s pattern.length pattern

/-! ### Shared data model -/

/-- Sync status values.  Modelled from the spec: `app/enums.py` (`SyncStatus`)
is not among the sources at hand; the spec fixes the value set
{SUCCESS, FAILURE, SKIPPED}, and the services also write the literal strings
`"FAILURE"` and `"SKIPPED"` directly, so the enum values are exactly these. -/
def SUCCESS : Str := "SUCCESS".toList

def FAILURE : Str := "FAILURE".toList

def SKIPPED : Str := "SKIPPED".toList

/-- One Result Record: the dictionaries appended to `detailed_results`.
Fields the Python code sometimes leaves out are `Option`s. -/
structure Rec where
  service : Str
  target_resource_name : Str := []
  mm_username : Option Str := none
  mm_user_email : Option Str := none
  mm_channel_display_name : Option Str := none
  status : Str
  action : Str
  error_message : Option Str := none
deriving DecidableEq

/-- A Mattermost user object as consumed by the sync code
(`id`, `username`, `email`). -/
structure MMUser where
  id : Str
  username : Str
  email : Str
deriving DecidableEq

/-- Insertion-ordered dictionaries (Python `dict`). -/
abbrev Dict (V : Type) := List (Str × V)

/-- `d[k] = v`: replace in place if the key exists, else append
(Python dicts keep the original insertion position on overwrite). -/
def dictInsert {V : Type} : Dict V → Str → V → Dict V
  | [], k, v => [(k, v)]
  | (k', v') :: t, k, v =>
    if k' = k then (k, v) :: t else (k', v') :: dictInsert t k v

/-- `d.get(k)`. -/
def dictLookup {V : Type} : Dict V → Str → Option V
  | [], _ => none
  | (k', v') :: t, k => if k' = k then some v' else dictLookup t k

/-- Add an element to a set modelled as a duplicate-free list. -/
def insertIfAbsent (x : Str) (s : List Str) : List Str :=
  if x ∈ s then s else s ++ [x]

/-! ### `slugify` from `libraries/services/mattermost.py` -/

/-- Characters matched by the regex class `[\s_]`. -/
def isSpaceOrUnderscore (c : Char) : Bool :=
  c == ' ' || c == '_' || c == '\t' || c == '\n' || c == '\r' ||
    c == Char.ofNat 11 || c == Char.ofNat 12

/-- Characters matched by the regex class `[a-z0-9-]`. -/
def isSlugChar (c : Char) : Bool :=
  ('a' ≤ c && c ≤ 'z') || ('0' ≤ c && c ≤ '9') || c == '-'

/-- `re.sub(r"<class>+", repl, s)`: replace each maximal run of characters
satisfying `p` with the single character `repl`. -/
def collapseRunsAux (p : Char → Bool) (repl : Char) : Bool → Str → Str
  | _, [] => []
  | inRun, c :: t =>
    if p c then
      if inRun then collapseRunsAux p repl true t
      else repl :: collapseRunsAux p repl true t
    else c :: collapseRunsAux p repl false t

def collapseRuns (p : Char → Bool) (repl : Char) (s : Str) : Str :=
  collapseRunsAux p repl false s

/-- Python `str.strip("-")`. -/
def stripDashes (s : Str) : Str :=
  ((s.dropWhile (· == '-')).reverse.dropWhile (· == '-')).reverse

/-- `slugify` from `libraries/services/mattermost.py`. -/
def slugify (text : Str) : Str :=
  let t1 := lowerStr text
  let t2 := collapseRuns isSpaceOrUnderscore '-' t1
  let t3 := collapseRuns (fun c => !isSlugChar c) '-' t2
  let t4 := stripDashes t3
  let t5 := collapseRuns (· == '-') '-' t4
  let t6 := if t5.length > 64 then stripDashes (t5.take 64) else t5
  if t6 = [] ∨ t6 = ['-'] then "default-channel-name".toList else t6

/-! ### Permissions-matrix configuration -/

/-- A `standard` / `admin` block of the permissions matrix (only the keys the
sync code reads). `none` models an absent key. -/
structure ChannelCfg where
  mattermost_channel_name_pattern : Option Str := none
  authentik_group_name_pattern : Option Str := none
deriving DecidableEq

structure OutlineCfg where
  collection_name_pattern : Option Str := none
  default_access : Option Str := none
  admin_access : Option Str := none
deriving DecidableEq

structure BrevoCfg where
  list_name_pattern : Option Str := none
deriving DecidableEq

structure NocodbCfg where
  base_title_pattern : Option Str := none
  default_access : Option Str := none
  admin_access : Option Str := none
deriving DecidableEq

structure VaultwardenCfg where
  collection_name_pattern : Option Str := none
deriving DecidableEq

/-- Configuration block of one entity kind.  A missing/empty (falsy) `admin`
block is `none`; a missing `standard` block behaves as an empty dict, i.e.
all fields `none`. -/
structure EntityCfg where
  standard : ChannelCfg := {}
  admin : Option ChannelCfg := none
  outline : Option OutlineCfg := none
  brevo : Option BrevoCfg := none
  nocodb : Option NocodbCfg := none
  vaultwarden : Option VaultwardenCfg := none
deriving DecidableEq

/-- `PERMISSIONS_MATRIX`: entity kinds in file (= iteration) order. -/
abbrev Matrix := List (Str × EntityCfg)

/-! ### Entity lookups (`_map_auth_group_to_entity_and_base_name`,
`_map_mm_channel_to_entity_and_base_name`) -/

/-- Python truthiness of an optional string. -/
def truthy : Option Str → Option Str
  | some [] => none
  | none => none
  | some s => some s

/-- First pass of `_map_auth_group_to_entity_and_base_name`: every kind's
admin `authentik_group_name_pattern`, in matrix order. -/
def authAdminPass (name : Str) : Matrix → Option (Str × Str)
  | [] => none
  | (k, cfg) :: t =>
    match cfg.admin with
    | none => authAdminPass name t
    | some acfg =>
      match truthy acfg.authentik_group_name_pattern with
      | none => authAdminPass name t
      | some p =>
        match extractBaseName name p with
        | some b => some (k, b)
        | none => authAdminPass name t

/-- Second pass: every kind's standard `authentik_group_name_pattern`. -/
def authStdPass (name : Str) : Matrix → Option (Str × Str)
  | [] => none
  | (k, cfg) :: t =>
    match truthy cfg.standard.authentik_group_name_pattern with
    | none => authStdPass name t
    | some p =>
      match extractBaseName name p with
      | some b => some (k, b)
      | none => authStdPass name t

/-- `AuthentikService._map_auth_group_to_entity_and_base_name`: all admin
patterns are tried (in matrix order) before any standard pattern. -/
def mapAuthGroupToEntity (name : Str) (matrix : Matrix) : Option (Str × Str) :=
  match authAdminPass name matrix with
  | some r => some r
  | none => authStdPass name matrix

/-- Display-name pass of `_map_mm_channel_to_entity_and_base_name`: kinds in
matrix order, the admin channel pattern tried before the standard one. -/
def mmDisplayPass (disp : Str) : Matrix → Option (Str × Str)
  | [] => none
  | (k, cfg) :: t =>
    let admRes : Option Str :=
      match cfg.admin with
      | none => none
      | some acfg =>
        match truthy acfg.mattermost_channel_name_pattern with
        | none => none
        | some p => extractBaseName disp p
    match admRes with
    | some b => some (k, b)
    | none =>
      match truthy cfg.standard.mattermost_channel_name_pattern with
      | none => mmDisplayPass disp t
      | some p =>
        match extractBaseName disp p with
        | some b => some (k, b)
        | none => mmDisplayPass disp t

/-- The "simple pattern check" guarding the slug fallback:
`slugify(pattern.format(base_name="test-slug")) ==
pattern.format(base_name="test-slug").lower()`. -/
def slugCompatible (p : Str) : Bool :=
  slugify (renderPattern p "test-slug".toList) ==
    lowerStr (renderPattern p "test-slug".toList)

/-- Slug fallback pass of `_map_mm_channel_to_entity_and_base_name`. -/
def mmSlugPass (slug : Str) : Matrix → Option (Str × Str)
  | [] => none
  | (k, cfg) :: t =>
    let admRes : Option Str :=
      match cfg.admin with
      | none => none
      | some acfg =>
        match truthy acfg.mattermost_channel_name_pattern with
        | none => none
        | some p =>
          if slugCompatible p then extractBaseName slug (lowerStr p) else none
    match admRes with
    | some b => some (k, b)
    | none =>
      match truthy cfg.standard.mattermost_channel_name_pattern with
      | none => mmSlugPass slug t
      | some p =>
        if slugCompatible p then
          match extractBaseName slug (lowerStr p) with
          | some b => some (k, b)
          | none => mmSlugPass slug t
        else mmSlugPass slug t

/-- `_map_mm_channel_to_entity_and_base_name`: display name first, slug as a
fallback. -/
def mapMMChannelToEntity (slug disp : Str) (matrix : Matrix) : Option (Str × Str) :=
  match mmDisplayPass disp matrix with
  | some r => some r
  | none => mmSlugPass slug matrix

/-! ### C8: admin-first pattern precedence -/

/-- "The admin authentik pattern of kind `cfg` could match `name`": the admin block
exists, carries a truthy pattern, and extraction succeeds. -/
def adminAuthMatch (cfg : EntityCfg) (name : Str) : Option Str :=
  match cfg.admin with
  | none => none
  | some acfg =>
    match truthy acfg.authentik_group_name_pattern with
    | none => none
    | some p => extractBaseName name p

/-- Same for the standard authentik pattern. -/
def stdAuthMatch (cfg : EntityCfg) (name : Str) : Option Str :=
  match truthy cfg.standard.authentik_group_name_pattern with
  | none => none
  | some p => extractBaseName name p

/-- Same for the admin Mattermost display-name pattern. -/
def adminMMMatch (cfg : EntityCfg) (disp : Str) : Option Str :=
  match cfg.admin with
  | none => none
  | some acfg =>
    match truthy acfg.mattermost_channel_name_pattern with
    | none => none
    | some p => extractBaseName disp p

/-- Same for the standard Mattermost display-name pattern. -/
def stdMMMatch (cfg : EntityCfg) (disp : Str) : Option Str :=
  match truthy cfg.standard.mattermost_channel_name_pattern with
  | none => none
  | some p => extractBaseName disp p

/-- A one-kind matrix whose admin and standard patterns can both match the
same group / channel names. -/
def c8Matrix : Matrix :=
  [("PROJECT".toList,
    { standard :=
        { mattermost_channel_name_pattern := some "Project {base_name}".toList
          authentik_group_name_pattern := some "proj_{base_name}".toList }
      admin := some
        { mattermost_channel_name_pattern := some "Project {base_name} Admin".toList
          authentik_group_name_pattern := some "proj_{base_name}_admin".toList } })]

/-! ### Shared membership assembly (`Service.get_mm_users_for_entity`,
`libraries/services/base.py`) -/

/-- One value of the `mm_users_for_services` map. -/
structure UserInfo where
  username : Str
  mm_user_id : Str
  is_admin_channel_member : Bool
deriving DecidableEq

/-- Pure view of the Mattermost client used during differential sync:
`get_channel_by_name` restricted to the team, returning the channel id. -/
structure MMEnv where
  get_channel_by_name : Str → Option Str

/-- `Service.get_mm_users_for_entity`: resolve the standard and (when
configured) admin channel, read their members from the pre-fetched map, and
build the merged `email_lowercase ↦ user-info` dictionary, admin members
overriding standard ones. -/
def getMMUsersForEntity (mm : MMEnv) (base_name : Str) (cfg : EntityCfg)
    (all_members : Dict (List MMUser)) :
    Dict UserInfo × List MMUser × List MMUser :=
  let std_name :=
    renderPattern (cfg.standard.mattermost_channel_name_pattern.getD placeholder) base_name
  let std_users :=
    match mm.get_channel_by_name (slugify std_name) with
    | some cid => (dictLookup all_members cid).getD []
    | none => []
  let adm_users :=
    match cfg.admin with
    | none => []
    | some acfg =>
      let adm_name :=
        renderPattern (acfg.mattermost_channel_name_pattern.getD
          "{base_name} Admin".toList) base_name
      match mm.get_channel_by_name (slugify adm_name) with
      | some cid => (dictLookup all_members cid).getD []
      | none => []
  let d1 := std_users.foldl (fun d u =>
    if lowerStr u.email = [] then d
    else dictInsert d (lowerStr u.email) ⟨u.username, u.id, false⟩) []
  let d2 :=
    match cfg.admin with
    | none => d1
    | some _ => adm_users.foldl (fun d u =>
        if lowerStr u.email = [] then d
        else dictInsert d (lowerStr u.email) ⟨u.username, u.id, true⟩) d1
  (d2, std_users, adm_users)

/-! ### Identity-provider (Authentik) reconciler,
`libraries/services/authentik.py` -/

structure AuthUser where
  pk : Str
  username : Str
  email : Str
deriving DecidableEq

structure AuthGroup where
  pk : Str
  name : Str
  users : List Str
  users_obj : List AuthUser
deriving DecidableEq

/-- Pure view of the configuration and Authentik client an
`AuthentikService` run observes. -/
structure AuthentikEnv where
  excluded : List Str
  add_user_to_group : Str → Str → Bool
  remove_user_from_group : Str → Str → Bool
  get_all_users_pk_by_email : Dict Str
  groups_with_users : List AuthGroup × Dict Str

/-- The `base_user_info` dictionary of `_ensure_users_in_authentik_group`. -/
def authBaseInfo (u : MMUser) (log gname : Str) : Rec :=
  { service := "AUTHENTIK".toList
    target_resource_name := gname
    mm_username := some u.username
    mm_user_email := some (if u.email = [] then "NoEmailProvided".toList else u.email)
    mm_channel_display_name := some log
    status := FAILURE
    action := "AUTHENTIK_GROUP_UNCHANGED".toList }

/-- Loop body of `_ensure_users_in_authentik_group`: one record per considered
user, plus the set of targeted Authentik pks. -/
def ensureUsersAuthAux (env : AuthentikEnv) (gpk gname : Str)
    (email_to_pk : Dict Str) (log : Str) (current : List Str) :
    List MMUser → List Rec × List Str
  | [] => ([], [])
  | u :: rest =>
    let tail := ensureUsersAuthAux env gpk gname email_to_pk log current rest
    if u.username ∈ env.excluded then tail
    else
      let info := authBaseInfo u log gname
      if lowerStr u.email = [] then
        ({ info with
            status := SKIPPED
            action := "SKIPPED_NO_MM_EMAIL_FOR_AUTHENTIK_ENSURE".toList
            error_message :=
              some "User has no email in Mattermost for Authentik mapping.".toList } ::
          tail.1, tail.2)
      else
        match dictLookup email_to_pk (lowerStr u.email) with
        | none =>
          ({ info with
              status := SKIPPED
              action := "SKIPPED_USER_NOT_IN_AUTHENTIK_FOR_ENSURE".toList
              error_message := some ("User email ".toList ++ lowerStr u.email ++
                " not in Authentik.".toList) } :: tail.1, tail.2)
        | some pk =>
          let r :=
            if pk ∉ current then
              if env.add_user_to_group gpk pk then
                { info with status := SUCCESS
                            action := "USER_ADDED_TO_AUTHENTIK_GROUP".toList }
              else
                { info with action := "FAILED_TO_ADD_TO_AUTHENTIK_GROUP".toList
                            error_message :=
                              some "API call to add user to Authentik group failed.".toList }
            else
              { info with status := SUCCESS
                          action := "USER_ALREADY_IN_AUTHENTIK_GROUP".toList }
          (r :: tail.1, insertIfAbsent pk tail.2)

/-- `_ensure_users_in_authentik_group`. -/
def ensureUsersInAuthentikGroup (env : AuthentikEnv) (gpk gname : Str)
    (users : List MMUser) (email_to_pk : Dict Str) (log : Str)
    (current : List Str) : List Rec × List Str :=
  if gpk = [] then ([], [])
  else ensureUsersAuthAux env gpk gname email_to_pk log current users

/-- `_sync_single_authentik_group`.  (The excluded-member scan in the source
only feeds a local target set that the function never returns, so it has no
effect on the result records.) -/
def syncSingleAuthentikGroup (env : AuthentikEnv) (g : AuthGroup)
    (users : List MMUser) (email_to_pk : Dict Str) (log : Str) : List Rec :=
  if g.pk = [] ∨ g.name = [] then
    [{ service := "AUTHENTIK".toList
       target_resource_name := g.name
       status := FAILURE
       action := "MISSING_GROUP_PK_OR_NAME".toList
       error_message := some "Group PK or name missing.".toList }]
  else (ensureUsersInAuthentikGroup env g.pk g.name users email_to_pk log g.users).1

/-- `remove_user_from_authentik_group`. -/
def removeUserFromAuthentikGroup (env : AuthentikEnv)
    (gpk gname upk uemail context : Str) : Rec :=
  if env.remove_user_from_group gpk upk then
    { service := "AUTHENTIK".toList
      target_resource_name := gname
      mm_user_email := some uemail
      mm_channel_display_name := some context
      status := SUCCESS
      action := "USER_REMOVED_FROM_AUTHENTIK_GROUP".toList }
  else
    { service := "AUTHENTIK".toList
      target_resource_name := gname
      mm_user_email := some uemail
      mm_channel_display_name := some context
      status := FAILURE
      action := "FAILED_TO_REMOVE_FROM_AUTHENTIK_GROUP".toList
      error_message := some "API call to remove user from Authentik group failed.".toList }

/-- `AuthentikService.group_sync`.  Returns the result records together with
the names passed to `create_group` (the calls issued for groups absent from
the pre-fetched map); a group absent from the map is created but not synced
in the same run. -/
def authentikGroupSync (env : AuthentikEnv) (base_name : Str) (cfg : EntityCfg)
    (groupsByName : Dict AuthGroup) (std_users adm_users : List MMUser)
    (log : Str) : List Rec × List Str :=
  let email_to_pk := env.get_all_users_pk_by_email
  let std_name :=
    renderPattern (cfg.standard.authentik_group_name_pattern.getD placeholder) base_name
  let stdPart :=
    match dictLookup groupsByName std_name with
    | none => (([] : List Rec), [std_name])
    | some g => (syncSingleAuthentikGroup env g std_users email_to_pk log, [])
  match cfg.admin with
  | none => stdPart
  | some acfg =>
    let adm_name :=
      renderPattern (acfg.authentik_group_name_pattern.getD
        "{base_name} Admin".toList) base_name
    match dictLookup groupsByName adm_name with
    | none => (stdPart.1, stdPart.2 ++ [adm_name])
    | some g =>
      (stdPart.1 ++ syncSingleAuthentikGroup env g adm_users email_to_pk log, stdPart.2)

/-- The `is_admin_group` test of `AuthentikService.differential_sync`:
`admin_cfg and _extract_base_name(group_name, admin_cfg.get(..., ""))` — an
extraction returning the empty string is falsy in Python. -/
def authGroupIsAdmin (ecfg : EntityCfg) (gname : Str) : Bool :=
  match ecfg.admin with
  | none => false
  | some acfg =>
    match extractBaseName gname (acfg.authentik_group_name_pattern.getD []) with
    | some (_ :: _) => true
    | _ => false

/-- Per-group body of `AuthentikService.differential_sync`. -/
def authentikDiffGroup (env : AuthentikEnv) (mm : MMEnv) (matrix : Matrix)
    (all_members : Dict (List MMUser)) (email_to_pk : Dict Str)
    (g : AuthGroup) : List Rec :=
  match mapAuthGroupToEntity g.name matrix with
  | none => []
  | some (k, b) =>
    if k = [] ∨ b = [] then []
    else
      let ecfg := (dictLookup matrix k).getD {}
      let is_admin_group := authGroupIsAdmin ecfg g.name
      let users3 := getMMUsersForEntity mm b ecfg all_members
      let group_users := if is_admin_group then users3.2.2 else users3.2.1
      let mm_emails : List Str := group_users.map (fun u => lowerStr u.email)
      let auth_emails : List Str :=
        (g.users_obj.filter (fun u => !u.email.isEmpty)).map (fun u => lowerStr u.email)
      let removals := g.users_obj.filterMap (fun u =>
        let e : Str := lowerStr u.email
        if e ≠ [] ∧ e ∉ mm_emails then
          if u.username ∈ env.excluded then none
          else some (removeUserFromAuthentikGroup env g.pk g.name u.pk e b)
        else none)
      let missing := group_users.filter (fun u => lowerStr u.email ∉ auth_emails)
      let adds :=
        if missing = [] then []
        else (ensureUsersInAuthentikGroup env g.pk g.name missing email_to_pk b []).1
      removals ++ adds

/-- `AuthentikService.differential_sync`. -/
def authentikDifferentialSync (env : AuthentikEnv) (mm : MMEnv) (matrix : Matrix)
    (all_members : Dict (List MMUser)) : List Rec :=
  (env.groups_with_users.1).flatMap
    (authentikDiffGroup env mm matrix all_members env.groups_with_users.2)

/-- A trivial Authentik environment for concrete instantiations. -/
def authEnvTrivial : AuthentikEnv :=
  { excluded := []
    add_user_to_group := fun _ _ => true
    remove_user_from_group := fun _ _ => true
    get_all_users_pk_by_email := []
    groups_with_users := ([], []) }

/-! ### C3: the admin-member merge claim -/

def bobMM : MMUser := ⟨"u1".toList, "bob".toList, "b@x".toList⟩

def c3Cfg : EntityCfg :=
  { standard :=
      { mattermost_channel_name_pattern := some "{base_name}".toList
        authentik_group_name_pattern := some "grp-{base_name}".toList }
    admin := some
      { mattermost_channel_name_pattern := some "{base_name}-admin".toList
        authentik_group_name_pattern := some "grp-{base_name}-admin".toList } }

def c3Matrix : Matrix := [("K".toList, c3Cfg)]

/-- Pre-fetched channel members: the standard channel `c1` is empty, the admin
channel `c2` contains bob. -/
def c3Members : Dict (List MMUser) :=
  [("c1".toList, []), ("c2".toList, [bobMM])]

def c3MM : MMEnv :=
  ⟨fun slug =>
    if slug = "orion".toList then some "c1".toList
    else if slug = "orion-admin".toList then some "c2".toList
    else none⟩

def bobAuth : AuthUser := ⟨"p1".toList, "bob".toList, "b@x".toList⟩

/-- The standard Authentik group currently contains bob. -/
def c3Group : AuthGroup :=
  ⟨"g1".toList, "grp-orion".toList, ["p1".toList], [bobAuth]⟩

def c3Env : AuthentikEnv :=
  { excluded := []
    add_user_to_group := fun _ _ => true
    remove_user_from_group := fun _ _ => true
    get_all_users_pk_by_email := [("b@x".toList, "p1".toList)]
    groups_with_users := ([c3Group], [("b@x".toList, "p1".toList)]) }

/-! ### Email (Brevo) reconciler, `libraries/services/brevo.py` -/

structure BrevoList where
  id : Nat
deriving DecidableEq

structure BrevoEnv where
  excluded : List Str
  get_lists : Str → List BrevoList
  create_list : Str → Option BrevoList
  add_contact_to_list : Str → Nat → Bool

/-- Loop of `_ensure_contacts_in_brevo_list`. -/
def ensureContactsBrevoAux (env : BrevoEnv) (list_id : Nat) (lname log : Str) :
    List MMUser → List Rec × List Str
  | [] => ([], [])
  | u :: rest =>
    let tail := ensureContactsBrevoAux env list_id lname log rest
    if u.username ∈ env.excluded then tail
    else
      let info : Rec :=
        { service := "BREVO".toList
          target_resource_name := lname
          mm_username := some u.username
          mm_user_email := some (if u.email = [] then "NoEmailProvided".toList else u.email)
          mm_channel_display_name := some log
          status := FAILURE
          action := [] }
      if u.email = [] then
        ({ info with
            status := SKIPPED
            action := "SKIPPED_NO_MM_EMAIL_FOR_BREVO_ENSURE".toList
            error_message := some "User has no email in Mattermost for Brevo.".toList } ::
          tail.1, tail.2)
      else
        let r :=
          if env.add_contact_to_list u.email list_id then
            { info with status := SUCCESS, action := "USER_ENSURED_IN_BREVO_LIST".toList }
          else
            { info with
                status := FAILURE
                action := "FAILED_TO_ENSURE_IN_BREVO_LIST".toList
                error_message := some ("API call to add/ensure contact ".toList ++
                  u.email ++ " in Brevo list failed.".toList) }
        (r :: tail.1, insertIfAbsent (lowerStr u.email) tail.2)

/-- `_ensure_contacts_in_brevo_list` (a Brevo list id of `0` is falsy). -/
def ensureContactsInBrevoList (env : BrevoEnv) (list_id : Nat)
    (lname : Str) (users : List MMUser) (log : Str) : List Rec × List Str :=
  if list_id = 0 then ([], [])
  else ensureContactsBrevoAux env list_id lname log users

/-- `_sync_single_brevo_list`: find the list by name, create it when absent,
then run the additive ensure step. -/
def syncSingleBrevoList (env : BrevoEnv) (lname : Str) (users : List MMUser)
    (log : Str) : List Rec :=
  match (env.get_lists lname).head? with
  | some l => (ensureContactsInBrevoList env l.id lname users log).1
  | none =>
    match env.create_list lname with
    | some l => (ensureContactsInBrevoList env l.id lname users log).1
    | none =>
      [{ service := "BREVO".toList
         target_resource_name := lname
         status := FAILURE
         action := "FAILED_TO_ENSURE_BREVO_LIST".toList
         error_message := some ("Could not create or find Brevo list ".toList ++
           lname ++ ".".toList) }]

/-- `BrevoService.group_sync`: one list per entity, fed with the *standard*
channel members. -/
def brevoGroupSync (env : BrevoEnv) (base_name : Str) (cfg : EntityCfg)
    (std_users : List MMUser) (log : Str) : List Rec :=
  match cfg.brevo with
  | none => []
  | some bcfg =>
    syncSingleBrevoList env
      (renderPattern (bcfg.list_name_pattern.getD "mm_{base_name}".toList) base_name)
      std_users log

/-- `BrevoService.differential_sync`: the body is a bare `return []`. -/
def brevoDifferentialSync (_mm_channel_members : Dict (List MMUser)) : List Rec :=
  []

def c4Cfg : EntityCfg :=
  { standard := { mattermost_channel_name_pattern := some "{base_name}".toList }
    brevo := some { list_name_pattern := some "mm_{base_name}".toList } }

def c4Env : BrevoEnv :=
  { excluded := []
    get_lists := fun _ => [⟨7⟩]
    create_list := fun _ => none
    add_contact_to_list := fun _ _ => true }

/-- The record bob's second identity-provider run produces in the concrete
scenario of C3. -/
def c5AlreadyRec : Rec :=
  { service := "AUTHENTIK".toList
    target_resource_name := "grp-orion".toList
    mm_username := some "bob".toList
    mm_user_email := some "b@x".toList
    mm_channel_display_name := some "orion".toList
    status := SUCCESS
    action := "USER_ALREADY_IN_AUTHENTIK_GROUP".toList }

/-! ### Database (NocoDB) reconciler, `libraries/services/nocodb.py` and
`clients/nocodb_client.py` -/

/-- Python `str.upper()` on the role names. -/
def upperStr (s : Str) : Str := s.map Char.toUpper

structure NocoBase where
  id : Str
  title : Str
deriving DecidableEq

structure NocoUser where
  id : Str
  email : Str
  roles : Str
deriving DecidableEq

/-- One HTTP request issued through `NocoDBClient._make_request`. -/
structure NocoRequest where
  method : Str
  endpoint : Str
  payload_roles : Option Str
deriving DecidableEq

/-- `NocoDBClient.update_base_user`: `PATCH projects/{base}/users/{user}`
with payload `{"roles": role}`. -/
def updateBaseUserRequest (base_id user_id role : Str) : NocoRequest :=
  { method := "patch".toList
    endpoint := "projects/".toList ++ base_id ++ "/users/".toList ++ user_id
    payload_roles := some role }

/-- `NocoDBClient.delete_base_user`: the client has no DELETE endpoint; it
delegates to `update_base_user(base_id, user_id, role="no-access")`. -/
def deleteBaseUserRequest (base_id user_id : Str) : NocoRequest :=
  updateBaseUserRequest base_id user_id "no-access".toList

structure NocodbEnv where
  excluded : List Str
  api : NocoRequest → Bool
  invite_user_to_base : Str → Str → Str → Bool
  list_bases : List NocoBase
  list_base_users : Str → List NocoUser
  send_dm : Str → Bool
  nocodb_url : Option Str

def updateBaseUser (env : NocodbEnv) (base_id user_id role : Str) : Bool :=
  env.api (updateBaseUserRequest base_id user_id role)

def deleteBaseUser (env : NocodbEnv) (base_id user_id : Str) : Bool :=
  updateBaseUser env base_id user_id "no-access".toList

/-- `_remove_user_from_nocodb_base`. -/
def removeUserFromNocodbBase (env : NocodbEnv)
    (base_id base_title user_id user_email context : Str) : Rec :=
  if deleteBaseUser env base_id user_id then
    { service := "NOCODB".toList
      target_resource_name := base_title
      mm_user_email := some user_email
      mm_channel_display_name := some context
      status := SUCCESS
      action := "NOCODB_USER_REMOVED_FROM_BASE".toList }
  else
    { service := "NOCODB".toList
      target_resource_name := base_title
      mm_user_email := some user_email
      mm_channel_display_name := some context
      status := FAILURE
      action := "FAILED_TO_REMOVE_NOCODB_USER".toList
      error_message := some "API call to remove user from NoCoDB base failed.".toList }

/-- Loop of `_ensure_users_in_nocodb_base`, iterating over the
`email_lowercase ↦ user-info` dictionary. -/
def ensureUsersNocoAux (env : NocodbEnv) (base_id base_title : Str)
    (default_p admin_p : Str) (current_map : Dict NocoUser) (log : Str) :
    Dict UserInfo → List Rec × List Str
  | [] => ([], [])
  | (email, info) :: rest =>
    let tail := ensureUsersNocoAux env base_id base_title default_p admin_p
      current_map log rest
    if info.username ∈ env.excluded then tail
    else
      let base : Rec :=
        { service := "NOCODB".toList
          target_resource_name := base_title
          mm_username := some info.username
          mm_user_email := some email
          mm_channel_display_name := some log
          status := FAILURE
          action := "NOCODB_USER_UNCHANGED".toList }
      let targeted := insertIfAbsent email tail.2
      let target_role := if info.is_admin_channel_member then admin_p else default_p
      match dictLookup current_map email with
      | some nu =>
        let r :=
          if nu.roles ≠ target_role then
            if updateBaseUser env base_id nu.id target_role then
              { base with status := SUCCESS
                          action := "NOCODB_USER_ROLE_UPDATED_TO_".toList ++
                            upperStr target_role }
            else
              { base with action := "FAILED_TO_UPDATE_NOCODB_USER_ROLE".toList
                          error_message := some "API call to update user role failed.".toList }
          else
            { base with status := SUCCESS
                        action := "NOCODB_USER_ALREADY_IN_BASE_WITH_CORRECT_ROLE".toList }
        (r :: tail.1, targeted)
      | none =>
        let verb := "NOCODB_USER_INVITED_AS_".toList ++ upperStr target_role
        let r :=
          if env.invite_user_to_base base_id email target_role then
            if info.mm_user_id ≠ [] ∧ truthy env.nocodb_url ≠ none then
              if env.send_dm info.mm_user_id then
                { base with status := SUCCESS, action := verb ++ "_AND_DM_SENT".toList }
              else
                { base with status := SUCCESS, action := verb ++ "_DM_FAILED".toList }
            else if truthy env.nocodb_url = none then
              { base with status := SUCCESS, action := verb ++ "_DM_SKIPPED_NO_URL".toList }
            else
              { base with status := SUCCESS, action := verb }
          else
            { base with action := "FAILED_TO_INVITE_NOCODB_USER".toList
                        error_message := some "API call to invite user failed.".toList }
        (r :: tail.1, targeted)

/-- `_ensure_users_in_nocodb_base`. -/
def ensureUsersInNocodbBase (env : NocodbEnv) (base_id base_title : Str)
    (users : Dict UserInfo) (default_p admin_p : Str)
    (current_map : Dict NocoUser) (log : Str) : List Rec × List Str :=
  if base_id = [] then ([], [])
  else ensureUsersNocoAux env base_id base_title default_p admin_p current_map log users

/-- `_map_nocodb_base_to_entity_and_base_name`. -/
def mapNocoBaseToEntity (title : Str) : Matrix → Option (Str × Str)
  | [] => none
  | (k, cfg) :: t =>
    match cfg.nocodb with
    | none => mapNocoBaseToEntity title t
    | some ncfg =>
      match truthy ncfg.base_title_pattern with
      | none => mapNocoBaseToEntity title t
      | some p =>
        match extractBaseName title p with
        | some b => some (k, b)
        | none => mapNocoBaseToEntity title t

/-- Per-base body of `NocoDBService.differential_sync`. -/
def nocodbDiffBase (env : NocodbEnv) (mm : MMEnv) (matrix : Matrix)
    (all_members : Dict (List MMUser)) (base : NocoBase) : List Rec :=
  match mapNocoBaseToEntity base.title matrix with
  | none => []
  | some (k, b) =>
    if k = [] ∨ b = [] then []
    else
      let ecfg := (dictLookup matrix k).getD {}
      let mm_users := (getMMUsersForEntity mm b ecfg all_members).1
      let mm_emails : List Str := mm_users.map (fun p => lowerStr p.1)
      let noco_users := env.list_base_users base.id
      let noco_emails : List Str :=
        (noco_users.filter (fun u => !u.email.isEmpty)).map (fun u => lowerStr u.email)
      let removals := noco_users.filterMap (fun u =>
        let e : Str := lowerStr u.email
        if e ≠ [] ∧ e ∉ mm_emails then
          some (removeUserFromNocodbBase env base.id base.title u.id e b)
        else none)
      let missing := mm_users.filter (fun p => p.1 ∉ noco_emails)
      let adds :=
        if missing = [] then []
        else
          (ensureUsersInNocodbBase env base.id base.title missing
            ((ecfg.nocodb.bind (fun n => n.default_access)).getD "viewer".toList)
            ((ecfg.nocodb.bind (fun n => n.admin_access)).getD "owner".toList)
            [] b).1
      removals ++ adds

/-- `NocoDBService.differential_sync`. -/
def nocodbDifferentialSync (env : NocodbEnv) (mm : MMEnv) (matrix : Matrix)
    (all_members : Dict (List MMUser)) : List Rec :=
  env.list_bases.flatMap (nocodbDiffBase env mm matrix all_members)

/-! ### Documentation collections (Outline) reconciler,
`libraries/services/outline.py` -/

/-- Collection details returned by `get_collection_details` (`name` and
`urlId`; an empty string models a falsy value). -/
structure OutlineColl where
  name : Str
  urlId : Str
deriving DecidableEq

/-- A collection member as returned by
`get_collection_members_with_details`. -/
structure OutlineMember where
  id : Str
  email : Str
deriving DecidableEq

/-- A discovered collection (`name`, `id`) from `list_collections`. -/
structure OutlineCollection where
  name : Str
  id : Str
deriving DecidableEq

/-- Pure view of the configuration, Outline client and Mattermost client an
`OutlineService` run observes; `get_user_by_email` yields the Outline user
id. -/
structure OutlineEnv where
  excluded : List Str
  get_user_by_email : Str → Option Str
  add_user_to_collection : Str → Str → Str → Bool
  get_collection_details : Str → Option OutlineColl
  remove_user_from_collection : Str → Str → Bool
  get_collection_members_with_details : Str → List OutlineMember
  list_collections : List OutlineCollection
  send_dm : Str → Bool
  outline_url : Option Str

/-- The truthiness test `coll_details and coll_details.get("name") and
coll_details.get("urlId")` guarding the DM for a fresh addition. -/
def outlineDetailsOk : Option OutlineColl → Bool
  | some c => !c.name.isEmpty && !c.urlId.isEmpty
  | none => false

/-- The DM decoration appended to a fresh addition's action tag
(the `if not is_already_member:` block of
`_ensure_users_in_outline_collection`). -/
def outlineDmSuffix (env : OutlineEnv) (collection_id mm_user_id : Str) : Str :=
  if outlineDetailsOk (env.get_collection_details collection_id) ∧
      mm_user_id ≠ [] then
    match truthy env.outline_url with
    | some _ =>
      if env.send_dm mm_user_id then "_AND_DM_SENT".toList else "_DM_FAILED".toList
    | none => "_DM_SKIPPED_NO_URL".toList
  else if mm_user_id ≠ [] then
    if truthy env.outline_url = none then "_DM_SKIPPED_NO_URL".toList
    else if outlineDetailsOk (env.get_collection_details collection_id) = false then
      "_DM_SKIPPED_INCOMPLETE_COLL_DETAILS".toList
    else "_DM_SKIPPED_UNKNOWN_REASON".toList
  else []

/-- Loop of `_ensure_users_in_outline_collection`, iterating over the
`email_lowercase ↦ user-info` dictionary; returns the records plus the set of
targeted Outline user ids. -/
def ensureUsersOutlineAux (env : OutlineEnv) (collection_id collection_name : Str)
    (default_p admin_p : Str) (current : List Str) (log : Str) :
    Dict UserInfo → List Rec × List Str
  | [] => ([], [])
  | (email, info) :: rest =>
    let tail := ensureUsersOutlineAux env collection_id collection_name default_p
      admin_p current log rest
    if info.username ∈ env.excluded then tail
    else
      let base : Rec :=
        { service := "OUTLINE".toList
          target_resource_name := collection_name
          mm_username := some info.username
          mm_user_email := some email
          mm_channel_display_name := some log
          status := FAILURE
          action := "OUTLINE_COLLECTION_UNCHANGED".toList }
      match env.get_user_by_email email with
      | none =>
        ({ base with
            status := SKIPPED
            action := "SKIPPED_USER_NOT_IN_OUTLINE_FOR_ENSURE".toList
            error_message := some ("User email ".toList ++ email ++
              " not found in Outline.".toList) } :: tail.1, tail.2)
      | some oid =>
        let targeted := insertIfAbsent oid tail.2
        let perm := if info.is_admin_channel_member then admin_p else default_p
        let r :=
          if env.add_user_to_collection collection_id oid perm then
            if oid ∈ current then
              { base with status := SUCCESS
                          action :=
                            "USER_ALREADY_IN_OUTLINE_COLLECTION_PERMISSION_ENSURED".toList }
            else
              { base with status := SUCCESS
                          action := "USER_ADDED_TO_OUTLINE_COLLECTION_WITH_".toList ++
                            upperStr perm ++ "_ACCESS".toList ++
                            outlineDmSuffix env collection_id info.mm_user_id }
          else
            if oid ∈ current then
              { base with action := "FAILED_TO_UPDATE_OUTLINE_PERMISSION".toList
                          error_message := some "API call to Outline failed.".toList }
            else
              { base with action := "FAILED_TO_ADD_TO_OUTLINE_COLLECTION".toList
                          error_message := some "API call to Outline failed.".toList }
        (r :: tail.1, targeted)

/-- `_ensure_users_in_outline_collection`. -/
def ensureUsersInOutlineCollection (env : OutlineEnv)
    (collection_id collection_name : Str) (users : Dict UserInfo)
    (default_p admin_p : Str) (current : List Str) (log : Str) :
    List Rec × List Str :=
  if collection_id = [] then ([], [])
  else ensureUsersOutlineAux env collection_id collection_name default_p admin_p
    current log users

/-- `_remove_user_from_outline_collection`. -/
def removeUserFromOutlineCollection (env : OutlineEnv)
    (collection_id collection_name user_id user_email context : Str) : Rec :=
  if env.remove_user_from_collection collection_id user_id then
    { service := "OUTLINE".toList
      target_resource_name := collection_name
      mm_user_email := some user_email
      mm_channel_display_name := some context
      status := SUCCESS
      action := "USER_REMOVED_FROM_OUTLINE_COLLECTION".toList }
  else
    { service := "OUTLINE".toList
      target_resource_name := collection_name
      mm_user_email := some user_email
      mm_channel_display_name := some context
      status := FAILURE
      action := "FAILED_TO_REMOVE_FROM_OUTLINE_COLLECTION".toList
      error_message :=
        some "API call to remove user from Outline collection failed.".toList }

/-- `_map_outline_collection_to_entity_and_base_name`. -/
def mapOutlineCollToEntity (cname : Str) : Matrix → Option (Str × Str)
  | [] => none
  | (k, cfg) :: t =>
    match cfg.outline with
    | none => mapOutlineCollToEntity cname t
    | some ocfg =>
      match truthy ocfg.collection_name_pattern with
      | none => mapOutlineCollToEntity cname t
      | some p =>
        match extractBaseName cname p with
        | some b => some (k, b)
        | none => mapOutlineCollToEntity cname t

/-- Per-collection body of `OutlineService.differential_sync`. -/
def outlineDiffColl (env : OutlineEnv) (mm : MMEnv) (matrix : Matrix)
    (all_members : Dict (List MMUser)) (coll : OutlineCollection) : List Rec :=
  match mapOutlineCollToEntity coll.name matrix with
  | none => []
  | some (k, b) =>
    if k = [] ∨ b = [] then []
    else
      let ecfg := (dictLookup matrix k).getD {}
      let mm_users := (getMMUsersForEntity mm b ecfg all_members).1
      let mm_emails : List Str := mm_users.map (fun p => lowerStr p.1)
      let ol_users := env.get_collection_members_with_details coll.id
      let ol_emails : List Str :=
        (ol_users.filter (fun u => !u.email.isEmpty)).map (fun u => lowerStr u.email)
      let removals := ol_users.filterMap (fun u =>
        let e : Str := lowerStr u.email
        if e ≠ [] ∧ e ∉ mm_emails then
          some (removeUserFromOutlineCollection env coll.id coll.name u.id e b)
        else none)
      let missing := mm_users.filter (fun p => p.1 ∉ ol_emails)
      let adds :=
        if missing = [] then []
        else
          (ensureUsersInOutlineCollection env coll.id coll.name missing
            ((ecfg.outline.bind (fun o => o.default_access)).getD "read".toList)
            ((ecfg.outline.bind (fun o => o.admin_access)).getD "read_write".toList)
            [] b).1
      removals ++ adds

/-- `OutlineService.differential_sync`. -/
def outlineDifferentialSync (env : OutlineEnv) (mm : MMEnv) (matrix : Matrix)
    (all_members : Dict (List MMUser)) : List Rec :=
  env.list_collections.flatMap (outlineDiffColl env mm matrix all_members)

/-! ### Password store (Vaultwarden): `clients/vaultwarden_client.py`
(`invite_user_to_collection`) and
`libraries/services/vaultwarden.py`
(`_ensure_users_invited_to_vaultwarden_collection`) -/

/-- Parsed body of a 400 invite response: `errorModel.message` and the lists
under `ValidationErrors`. -/
structure VwBody where
  errorModelMessage : Str
  validationErrors : List (List Str)
deriving DecidableEq

/-- An invite response; `body = none` models an unparsable (non-JSON) body. -/
structure VwResponse where
  status : Nat
  body : Option VwBody
deriving DecidableEq

/-- The `already_member_messages` list of `invite_user_to_collection`. -/
def alreadyMemberMessages : List Str :=
  ["already a member".toList,
   "user already invited".toList,
   "is already a member".toList,
   "already in this collection".toList,
   "user is already confirmed".toList]

/-- The idempotency test of `invite_user_to_collection`: a phrase occurs in
the lower-cased `errorModel.message`, or in some lower-cased entry of a
`ValidationErrors` list. -/
def vwIdempotentBody (b : VwBody) : Bool :=
  alreadyMemberMessages.any (fun ph => containsSub ph (lowerStr b.errorModelMessage)) ||
    b.validationErrors.any (fun errs =>
      errs.any (fun msg =>
        alreadyMemberMessages.any (fun ph => containsSub ph (lowerStr msg))))

/-- `VaultwardenClient.invite_user_to_collection`: without a configured server
url the call fails immediately; a 2xx/3xx response succeeds; a 400 response
succeeds exactly when its parsed body passes the idempotency test; any other
error status fails. -/
def inviteUserToCollection (server_url : Option Str) (resp : VwResponse) : Bool :=
  if truthy server_url = none then false
  else if resp.status < 400 then true
  else if resp.status = 400 then
    match resp.body with
    | none => false
    | some b => vwIdempotentBody b
  else false

structure VwEnv where
  excluded : List Str
  invite_response : Str → VwResponse
  send_dm : Str → Bool
  server_url : Option Str

/-- Loop of `_ensure_users_invited_to_vaultwarden_collection`. -/
def ensureVwAux (env : VwEnv) (collection_id collection_name : Str) (log : Str) :
    Dict UserInfo → List Rec
  | [] => []
  | (email, info) :: rest =>
    let tail := ensureVwAux env collection_id collection_name log rest
    if info.username ∈ env.excluded then tail
    else
      let base : Rec :=
        { service := "VAULTWARDEN".toList
          target_resource_name := collection_name
          mm_username := some info.username
          mm_user_email := some email
          mm_channel_display_name := some log
          status := FAILURE
          action := "VAULTWARDEN_USER_INVITE_UNCHANGED".toList }
      if email = [] then
        ({ base with status := SKIPPED
                     action := "SKIPPED_NO_EMAIL_FOR_VW_INVITE".toList } :: tail)
      else
        let r :=
          if inviteUserToCollection env.server_url (env.invite_response email) then
            let r0 := { base with status := SUCCESS
                                  action := "USER_INVITED_TO_VW_COLLECTION".toList }
            if info.mm_user_id ≠ [] then
              match truthy env.server_url with
              | some _ =>
                if env.send_dm info.mm_user_id then
                  { r0 with action := "USER_INVITED_TO_VW_COLLECTION_AND_DM_SENT".toList }
                else
                  { r0 with action := "USER_INVITED_TO_VW_COLLECTION_DM_FAILED".toList }
              | none =>
                { r0 with action := "USER_INVITED_TO_VW_COLLECTION_DM_SKIPPED_NO_URL".toList }
            else
              { r0 with action :=
                  "USER_INVITED_TO_VW_COLLECTION_DM_SKIPPED_NO_MM_USER_ID".toList }
          else
            { base with action := "FAILED_TO_INVITE_TO_VW_COLLECTION".toList
                        error_message :=
                          some "API call to invite to VW collection failed or user already member/invited.".toList }
        r :: tail

/-- `_ensure_users_invited_to_vaultwarden_collection`. -/
def ensureUsersInvitedToVwCollection (env : VwEnv)
    (collection_id collection_name : Str) (users : Dict UserInfo)
    (log : Str) (access_token : Str) : List Rec :=
  if collection_id = [] then []
  else if access_token = [] then
    [{ service := "VAULTWARDEN".toList
       target_resource_name := collection_name
       status := FAILURE
       action := "VW_ENSURE_FAILED_NO_TOKEN".toList
       error_message := some "Missing Vaultwarden access token.".toList }]
  else ensureVwAux env collection_id collection_name log users

/-- The SUCCESS invite action tags (base tag and its DM decorations). -/
def invitedVwActions : List Str :=
  ["USER_INVITED_TO_VW_COLLECTION".toList,
   "USER_INVITED_TO_VW_COLLECTION_AND_DM_SENT".toList,
   "USER_INVITED_TO_VW_COLLECTION_DM_FAILED".toList,
   "USER_INVITED_TO_VW_COLLECTION_DM_SKIPPED_NO_URL".toList,
   "USER_INVITED_TO_VW_COLLECTION_DM_SKIPPED_NO_MM_USER_ID".toList]

def c7Body : VwBody :=
  { errorModelMessage := "alice@x is already a member of this collection.".toList
    validationErrors := [] }

def c7Env : VwEnv :=
  { excluded := []
    invite_response := fun _ => { status := 400, body := some c7Body }
    send_dm := fun _ => true
    server_url := some "https://vw.example".toList }

def c1Cfg : EntityCfg :=
  { standard := { mattermost_channel_name_pattern := some "{base_name}".toList }
    nocodb := some { base_title_pattern := some "db-{base_name}".toList } }

def c1Matrix : Matrix := [("K".toList, c1Cfg)]

def c1Base : NocoBase := ⟨"b1".toList, "db-orion".toList⟩

/-- The base member belonging to the excluded user `xuser`. -/
def c1NocoUser : NocoUser := ⟨"u7".toList, "x@y".toList, "viewer".toList⟩

def c1MM : MMEnv :=
  ⟨fun slug => if slug = "orion".toList then some "c1".toList else none⟩

/-- The standard channel `c1` has no members: `xuser` is absent from the
authoritative set. -/
def c1Members : Dict (List MMUser) := [("c1".toList, [])]

def c1Env : NocodbEnv :=
  { excluded := ["xuser".toList]
    api := fun _ => true
    invite_user_to_base := fun _ _ _ => true
    list_bases := [c1Base]
    list_base_users := fun _ => [c1NocoUser]
    send_dm := fun _ => true
    nocodb_url := none }

def c1AuthEnv : AuthentikEnv :=
  { excluded := ["xuser".toList]
    add_user_to_group := fun _ _ => true
    remove_user_from_group := fun _ _ => true
    get_all_users_pk_by_email := []
    groups_with_users := ([], []) }

def c1XAuth : AuthUser := ⟨"p9".toList, "xuser".toList, "x@y".toList⟩

def c1AuthGroup : AuthGroup :=
  ⟨"g1".toList, "grp-orion".toList, ["p9".toList], [c1XAuth]⟩

/-- Entity kind whose documentation collections follow `doc-{base_name}`. -/
def c1OlCfg : EntityCfg :=
  { standard := { mattermost_channel_name_pattern := some "{base_name}".toList }
    outline := some { collection_name_pattern := some "doc-{base_name}".toList } }

def c1OlMatrix : Matrix := [("K".toList, c1OlCfg)]

def c1Coll : OutlineCollection := ⟨"doc-orion".toList, "ol1".toList⟩

/-- Outline environment in which the excluded `xuser` (email `x@y`) is a
member of the collection `doc-orion`. -/
def c1OlEnv : OutlineEnv :=
  { excluded := ["xuser".toList]
    get_user_by_email := fun _ => none
    add_user_to_collection := fun _ _ _ => true
    get_collection_details := fun _ => none
    remove_user_from_collection := fun _ _ => true
    get_collection_members_with_details := fun _ => [⟨"ou7".toList, "x@y".toList⟩]
    list_collections := [c1Coll]
    send_dm := fun _ => true
    outline_url := none }

/-- Entity configuration with both a standard and an admin identity-provider
group pattern, for the fresh-group scenario. -/
def c10Cfg : EntityCfg :=
  { standard := { authentik_group_name_pattern := some "grp-{base_name}".toList }
    admin := some { authentik_group_name_pattern := some "adm-{base_name}".toList } }

/-- Environment of the database second-run scenario: the client keeps
succeeding; the base state is passed through the current-users map. -/
def c5NocoEnv : NocodbEnv :=
  { excluded := []
    api := fun _ => true
    invite_user_to_base := fun _ _ _ => true
    list_bases := []
    list_base_users := fun _ => []
    send_dm := fun _ => true
    nocodb_url := none }

/-- The record bob's second database-reconciler run produces in the concrete
witness scenario. -/
def c5NocoRec : Rec :=
  { service := "NOCODB".toList
    target_resource_name := "db-orion".toList
    mm_username := some "bob".toList
    mm_user_email := some "b@x".toList
    mm_channel_display_name := some "orion".toList
    status := SUCCESS
    action := "NOCODB_USER_ALREADY_IN_BASE_WITH_CORRECT_ROLE".toList }

/-- Environment of the documentation second-run scenario: bob resolves to the
Outline user `ou1` and the permission re-assertion succeeds. -/
def c5OlEnv : OutlineEnv :=
  { excluded := []
    get_user_by_email := fun _ => some "ou1".toList
    add_user_to_collection := fun _ _ _ => true
    get_collection_details := fun _ => none
    remove_user_from_collection := fun _ _ => true
    get_collection_members_with_details := fun _ => []
    list_collections := []
    send_dm := fun _ => true
    outline_url := none }

/-- The record bob's second documentation-reconciler run produces in the
concrete witness scenario. -/
def c5OlRec : Rec :=
  { service := "OUTLINE".toList
    target_resource_name := "doc-orion".toList
    mm_username := some "bob".toList
    mm_user_email := some "b@x".toList
    mm_channel_display_name := some "orion".toList
    status := SUCCESS
    action := "USER_ALREADY_IN_OUTLINE_COLLECTION_PERMISSION_ENSURED".toList }

/-! ### C2: the orchestrator's per-entity reconciler loop,
`orchestrate_group_synchronization` (`libraries/group_sync_services.py`,
the `for service in services:` loop) -/

/-- One reconciler as the orchestrator's loop sees it: whether its client is
configured, whether its name is in `skip_services`, and what its
`group_sync` coroutine does — returns records or raises. -/
structure ServiceRun where
  has_client : Bool
  skipped : Bool
  run : Except Str (List Rec)

/-- The loop body: each configured, non-skipped service's `group_sync` is
awaited and its records extended onto `detailed_results`.  There is no
try/except around the call, so a raised exception propagates out of the
whole orchestration (Python unwinds the loop and the accumulated
`detailed_results` list is lost). -/
def orchestrateServiceLoop : List ServiceRun → Except Str (List Rec)
  | [] => Except.ok []
  | s :: rest =>
    if s.has_client ∧ ¬ s.skipped then
      match s.run with
      | Except.error e => Except.error e
      | Except.ok rs =>
        match orchestrateServiceLoop rest with
        | Except.error e => Except.error e
        | Except.ok rest' => Except.ok (rs ++ rest')
    else orchestrateServiceLoop rest

def c2Rec : Rec :=
  { service := "OUTLINE".toList
    target_resource_name := "Orion".toList
    status := SUCCESS
    action := "USER_ADDED_TO_OUTLINE_COLLECTION_WITH_READ_ACCESS_AND_DM_SENT".toList }

theorem firstOcc_isPrefixOf {sep s : Str} {i : Nat} (h : firstOcc sep s = some i) :
    sep <+: s.drop i := by
  induction s generalizing i with
  | nil =>
    unfold firstOcc at h
    split at h
    · simp_all
    · simp at h
  | cons c t ih =>
    unfold firstOcc at h
    split at h
    · rename_i hpre
      obtain rfl : i = 0 := by simpa using h.symm
      simpa using List.isPrefixOf_iff_prefix.1 hpre
    · rcases Option.map_eq_some'.1 h with ⟨j, hj, rfl⟩
      simpa using ih hj

theorem firstOcc_decomp {sep s : Str} {i : Nat} (h : firstOcc sep s = some i) :
    s = s.take i ++ sep ++ s.drop (i + sep.length) := by
  have hpre := firstOcc_isPrefixOf h
  have hdrop : s.drop i = sep ++ (s.drop i).drop sep.length :=
    (List.prefix_iff_eq_append.1 hpre).symm
  have hdd : (s.drop i).drop sep.length = s.drop (i + sep.length) := by
    rw [List.drop_drop, Nat.add_comm]
  calc s = s.take i ++ s.drop i := (List.take_append_drop i s).symm
    _ = s.take i ++ (sep ++ (s.drop i).drop sep.length) := by rw [← hdrop]
    _ = s.take i ++ sep ++ s.drop (i + sep.length) := by rw [hdd, List.append_assoc]

theorem firstOcc_ne_nil {sep s : Str} {i : Nat} (hsep : sep ≠ [])
    (h : firstOcc sep s = some i) : s ≠ [] := by
  cases s with
  | nil => unfold firstOcc at h; simp [hsep] at h
  | cons c t => simp

theorem renderAux_no_occ {pattern s : Str} {fuel : Nat}
    (h : firstOcc placeholder pattern = none) :
    renderAux s fuel pattern = pattern := by
  cases fuel with
  | zero => rfl
  | succ n => simp [renderAux, h]

theorem renderPattern_no_occ {pattern s : Str} (h : firstOcc placeholder pattern = none) :
    renderPattern pattern s = pattern :=
  renderAux_no_occ h

theorem renderPattern_once {pattern s : Str} {i : Nat}
    (h1 : firstOcc placeholder pattern = some i)
    (h2 : firstOcc placeholder (pattern.drop (i + placeholder.length)) = none) :
    renderPattern pattern s =
      pattern.take i ++ s ++ pattern.drop (i + placeholder.length) := by
  have hpos : 0 < pattern.length :=
    List.length_pos.2 (firstOcc_ne_nil (by decide) h1)
  obtain ⟨n, hn⟩ : ∃ n, pattern.length = n + 1 := ⟨pattern.length - 1, by omega⟩
  unfold renderPattern
  rw [hn]
  simp [renderAux, h1, renderAux_no_occ h2]

theorem extract_of_wrapped (pre s suf : Str) {P : Str} {i : Nat}
    (h1 : firstOcc placeholder P = some i)
    (h2 : firstOcc placeholder (P.drop (i + placeholder.length)) = none)
    (hpre : pre = P.take i) (hsuf : suf = P.drop (i + placeholder.length)) :
    extractBaseName (pre ++ s ++ suf) P = some s := by
  subst hpre hsuf
  have hps : (P.take i).isPrefixOf (P.take i ++ s ++ P.drop (i + placeholder.length)) := by
    rw [ List.isPrefixOf_iff_prefix, List.append_assoc]
    exact List.prefix_append _ _
  have hss :
      (P.drop (i + placeholder.length)).isSuffixOf
        (P.take i ++ s ++ P.drop (i + placeholder.length)) := by
    rw [List.isSuffixOf_iff_suffix]
    exact List.suffix_append _ _
  simp only [extractBaseName, h1, h2, hps, hss, Bool.and_self, if_true]
  rw [if_neg (by simp only [List.length_append]; omega)]
  by_cases hnil : P.drop (i + placeholder.length) = []
  · rw [if_pos hnil, hnil, List.append_nil, List.drop_left]
  · rw [if_neg hnil]
    have hlen :
        (P.take i ++ s ++ P.drop (i + placeholder.length)).length -
          (P.drop (i + placeholder.length)).length = (P.take i ++ s).length := by
      simp only [List.length_append]
      omega
    rw [hlen, List.take_left, List.drop_left]

/-- **C6** (pattern round-trip).  For every pattern `P` containing the literal
`{base_name}` placeholder exactly once — its first occurrence is at some index
`i` and no further occurrence follows it — and every string `s` (the empty
string included), extracting the base name from the rendered name returns
`some s`, a valid match distinct from the `none` returned on no match. -/
theorem c6_pattern_round_trip (P s : Str) (i : Nat)
    (h1 : firstOcc placeholder P = some i)
    (h2 : firstOcc placeholder (P.drop (i + placeholder.length)) = none) :
    extractBaseName (renderPattern P s) P = some s := by
  rw [renderPattern_once h1 h2]
  exact extract_of_wrapped _ _ _ h1 h2 rfl rfl

/-- Witness for C6: the pattern `"proj_{base_name}"` with base names `"x"` and
`""` (the empty base name is a valid match). -/
theorem c6_pattern_round_trip_witness :
    firstOcc placeholder "proj_{base_name}".toList = some 5 ∧
      firstOcc placeholder ("proj_{base_name}".toList.drop (5 + placeholder.length)) = none ∧
      extractBaseName (renderPattern "proj_{base_name}".toList "x".toList)
        "proj_{base_name}".toList = some "x".toList ∧
      extractBaseName (renderPattern "proj_{base_name}".toList [])
        "proj_{base_name}".toList = some [] :=
  ⟨by decide, by decide,
    c6_pattern_round_trip _ _ 5 (by decide) (by decide),
    c6_pattern_round_trip _ _ 5 (by decide) (by decide)⟩

theorem truthy_eq_some {o : Option Str} {p : Str} (h : truthy o = some p) :
    o = some p ∧ p ≠ [] := by
  match o with
  | none => simp [truthy] at h
  | some [] => simp [truthy] at h
  | some (c :: t) =>
    simp [truthy] at h
    simp [← h]

theorem authAdminPass_cons (name : Str) (k : Str) (cfg : EntityCfg) (t : Matrix) :
    authAdminPass name ((k, cfg) :: t) =
      match adminAuthMatch cfg name with
      | some b => some (k, b)
      | none => authAdminPass name t := by
  rcases hadm : cfg.admin with _ | acfg
  · simp [authAdminPass, adminAuthMatch, hadm]
  · rcases htr : truthy acfg.authentik_group_name_pattern with _ | p
    · simp [authAdminPass, adminAuthMatch, hadm, htr]
    · rcases hex : extractBaseName name p with _ | b <;>
        simp [authAdminPass, adminAuthMatch, hadm, htr, hex]

theorem authStdPass_cons (name : Str) (k : Str) (cfg : EntityCfg) (t : Matrix) :
    authStdPass name ((k, cfg) :: t) =
      match stdAuthMatch cfg name with
      | some b => some (k, b)
      | none => authStdPass name t := by
  rcases htr : truthy cfg.standard.authentik_group_name_pattern with _ | p
  · simp [authStdPass, stdAuthMatch, htr]
  · rcases hex : extractBaseName name p with _ | b <;>
      simp [authStdPass, stdAuthMatch, htr, hex]

theorem mmDisplayPass_cons (disp : Str) (k : Str) (cfg : EntityCfg) (t : Matrix) :
    mmDisplayPass disp ((k, cfg) :: t) =
      match adminMMMatch cfg disp with
      | some b => some (k, b)
      | none =>
        match stdMMMatch cfg disp with
        | some b => some (k, b)
        | none => mmDisplayPass disp t := by
  rcases hadm : cfg.admin with _ | acfg
  · rcases hst : truthy cfg.standard.mattermost_channel_name_pattern with _ | p
    · simp [mmDisplayPass, adminMMMatch, stdMMMatch, hadm, hst]
    · rcases hex : extractBaseName disp p with _ | b <;>
        simp [mmDisplayPass, adminMMMatch, stdMMMatch, hadm, hst, hex]
  · rcases htr : truthy acfg.mattermost_channel_name_pattern with _ | p
    · rcases hst : truthy cfg.standard.mattermost_channel_name_pattern with _ | q
      · simp [mmDisplayPass, adminMMMatch, stdMMMatch, hadm, htr, hst]
      · rcases hex : extractBaseName disp q with _ | b <;>
          simp [mmDisplayPass, adminMMMatch, stdMMMatch, hadm, htr, hst, hex]
    · rcases hea : extractBaseName disp p with _ | b
      · rcases hst : truthy cfg.standard.mattermost_channel_name_pattern with _ | q
        · simp [mmDisplayPass, adminMMMatch, stdMMMatch, hadm, htr, hea, hst]
        · rcases hex : extractBaseName disp q with _ | b <;>
            simp [mmDisplayPass, adminMMMatch, stdMMMatch, hadm, htr, hea, hst, hex]
      · simp [mmDisplayPass, adminMMMatch, stdMMMatch, hadm, htr, hea]

theorem keyUnique {m : Matrix} (hnd : (m.map Prod.fst).Nodup) {k : Str}
    {c1 c2 : EntityCfg} (h1 : (k, c1) ∈ m) (h2 : (k, c2) ∈ m) : c1 = c2 := by
  induction m with
  | nil => cases h1
  | cons hd t ih =>
    rw [List.map_cons, List.nodup_cons] at hnd
    rcases List.mem_cons.1 h1 with e1 | h1t
    · rcases List.mem_cons.1 h2 with e2 | h2t
      · exact congrArg Prod.snd (e1.trans e2.symm)
      · exfalso
        apply hnd.1
        have hk : hd.1 = k := by rw [← e1]
        rw [hk]
        exact List.mem_map_of_mem Prod.fst h2t
    · rcases List.mem_cons.1 h2 with e2 | h2t
      · exfalso
        apply hnd.1
        have hk : hd.1 = k := by rw [← e2]
        rw [hk]
        exact List.mem_map_of_mem Prod.fst h1t
      · exact ih hnd.2 h1t h2t

theorem authAdminPass_mem {name : Str} {m : Matrix} {k b : Str}
    (h : authAdminPass name m = some (k, b)) :
    ∃ cfg, (k, cfg) ∈ m ∧ adminAuthMatch cfg name = some b := by
  induction m with
  | nil => simp [authAdminPass] at h
  | cons hd t ih =>
    obtain ⟨k', cfg⟩ := hd
    rw [authAdminPass_cons] at h
    rcases ha : adminAuthMatch cfg name with _ | b'
    · rw [ha] at h
      obtain ⟨cfg', hmem, hm⟩ := ih h
      exact ⟨cfg', List.mem_cons_of_mem _ hmem, hm⟩
    · rw [ha] at h
      simp only [Option.some.injEq, Prod.mk.injEq] at h
      obtain ⟨rfl, rfl⟩ := h
      exact ⟨cfg, List.mem_cons_self _ _, ha⟩

theorem authAdminPass_isSome {name : Str} {m : Matrix} {k a : Str} {cfg : EntityCfg}
    (hmem : (k, cfg) ∈ m) (hm : adminAuthMatch cfg name = some a) :
    (authAdminPass name m).isSome := by
  induction m with
  | nil => cases hmem
  | cons hd t ih =>
    obtain ⟨k', cfg'⟩ := hd
    rw [authAdminPass_cons]
    rcases List.mem_cons.1 hmem with heq | hmt
    · obtain ⟨rfl, rfl⟩ : k' = k ∧ cfg' = cfg :=
        ⟨congrArg Prod.fst heq.symm, congrArg Prod.snd heq.symm⟩
      rw [hm]
      rfl
    · rcases adminAuthMatch cfg' name with _ | b
      · exact ih hmt
      · rfl

theorem mmDisplayPass_mem {disp : Str} {m : Matrix} {k b : Str}
    (h : mmDisplayPass disp m = some (k, b)) :
    ∃ cfg, (k, cfg) ∈ m ∧
      (adminMMMatch cfg disp = some b ∨
        (adminMMMatch cfg disp = none ∧ stdMMMatch cfg disp = some b)) := by
  induction m with
  | nil => simp [mmDisplayPass] at h
  | cons hd t ih =>
    obtain ⟨k', cfg⟩ := hd
    rw [mmDisplayPass_cons] at h
    rcases ha : adminMMMatch cfg disp with _ | b'
    · rw [ha] at h
      rcases hs : stdMMMatch cfg disp with _ | b''
      · rw [hs] at h
        obtain ⟨cfg', hmem, hm⟩ := ih h
        exact ⟨cfg', List.mem_cons_of_mem _ hmem, hm⟩
      · rw [hs] at h
        simp only [Option.some.injEq, Prod.mk.injEq] at h
        obtain ⟨rfl, rfl⟩ := h
        exact ⟨cfg, List.mem_cons_self _ _, Or.inr ⟨ha, hs⟩⟩
    · rw [ha] at h
      simp only [Option.some.injEq, Prod.mk.injEq] at h
      obtain ⟨rfl, rfl⟩ := h
      exact ⟨cfg, List.mem_cons_self _ _, Or.inl ha⟩

theorem mmDisplayPass_isSome {disp : Str} {m : Matrix} {k a : Str} {cfg : EntityCfg}
    (hmem : (k, cfg) ∈ m) (hm : adminMMMatch cfg disp = some a) :
    (mmDisplayPass disp m).isSome := by
  induction m with
  | nil => cases hmem
  | cons hd t ih =>
    obtain ⟨k', cfg'⟩ := hd
    rw [mmDisplayPass_cons]
    rcases List.mem_cons.1 hmem with heq | hmt
    · obtain ⟨rfl, rfl⟩ : k' = k ∧ cfg' = cfg :=
        ⟨congrArg Prod.fst heq.symm, congrArg Prod.snd heq.symm⟩
      rw [hm]
      rfl
    · rcases adminMMMatch cfg' disp with _ | b
      · rcases stdMMMatch cfg' disp with _ | b'
        · exact ih hmt
        · rfl
      · rfl

theorem authAdminPass_append {name : Str} {pre : Matrix} {K : Str}
    {cfg : EntityCfg} {post : Matrix} {a : Str}
    (hpre : ∀ p ∈ pre, adminAuthMatch p.2 name = none)
    (hK : adminAuthMatch cfg name = some a) :
    authAdminPass name (pre ++ (K, cfg) :: post) = some (K, a) := by
  induction pre with
  | nil =>
    rw [List.nil_append, authAdminPass_cons, hK]
  | cons hd t ih =>
    obtain ⟨k', c'⟩ := hd
    rw [List.cons_append, authAdminPass_cons,
      hpre (k', c') (List.mem_cons_self _ _)]
    exact ih fun p hp => hpre p (List.mem_cons_of_mem _ hp)

theorem mmDisplayPass_append {disp : Str} {pre : Matrix} {K : Str}
    {cfg : EntityCfg} {post : Matrix} {a : Str}
    (hpre : ∀ p ∈ pre, adminMMMatch p.2 disp = none ∧ stdMMMatch p.2 disp = none)
    (hK : adminMMMatch cfg disp = some a) :
    mmDisplayPass disp (pre ++ (K, cfg) :: post) = some (K, a) := by
  induction pre with
  | nil =>
    rw [List.nil_append, mmDisplayPass_cons, hK]
  | cons hd t ih =>
    obtain ⟨k', c'⟩ := hd
    rw [List.cons_append, mmDisplayPass_cons,
      (hpre (k', c') (List.mem_cons_self _ _)).1,
      (hpre (k', c') (List.mem_cons_self _ _)).2]
    exact ih fun p hp => hpre p (List.mem_cons_of_mem _ hp)

/-- **C8** (admin-first pattern precedence), for the identity-provider group
lookup and the chat-channel lookup.  (i) and (ii): whenever the lookup maps a
name to a kind whose admin pattern also matches that name, the returned base
name is the admin extraction — the standard pattern is never preferred over a
matching admin pattern of the same kind.  (iii) and (iv): kinds are tried in
matrix order — the first kind (in matrix order) whose admin pattern matches
wins, for the group lookup across the dedicated admin pass, and for the
channel lookup across the per-kind admin-then-standard iteration. -/
theorem c8_admin_first (matrix : Matrix) (name slug disp : Str)
    (hnd : (matrix.map Prod.fst).Nodup) :
    (∀ K cfg b a, (K, cfg) ∈ matrix →
      mapAuthGroupToEntity name matrix = some (K, b) →
      adminAuthMatch cfg name = some a → b = a) ∧
    (∀ K cfg b a, (K, cfg) ∈ matrix →
      mapMMChannelToEntity slug disp matrix = some (K, b) →
      adminMMMatch cfg disp = some a → b = a) ∧
    (∀ pre K cfg post a, matrix = pre ++ (K, cfg) :: post →
      (∀ p ∈ pre, adminAuthMatch p.2 name = none) →
      adminAuthMatch cfg name = some a →
      mapAuthGroupToEntity name matrix = some (K, a)) ∧
    (∀ pre K cfg post a, matrix = pre ++ (K, cfg) :: post →
      (∀ p ∈ pre, adminMMMatch p.2 disp = none ∧ stdMMMatch p.2 disp = none) →
      adminMMMatch cfg disp = some a →
      mapMMChannelToEntity slug disp matrix = some (K, a)) := by
  refine ⟨?_, ?_, ?_, ?_⟩
  · intro K cfg b a hmem hmap hadm
    unfold mapAuthGroupToEntity at hmap
    rcases hp : authAdminPass name matrix with _ | r
    · have := authAdminPass_isSome hmem hadm
      rw [hp] at this
      cases this
    · rw [hp] at hmap
      obtain rfl : r = (K, b) := Option.some_injective _ hmap
      obtain ⟨cfg', hmem', hm'⟩ := authAdminPass_mem hp
      rw [keyUnique hnd hmem' hmem] at hm'
      rw [hm'] at hadm
      exact Option.some_injective _ hadm
  · intro K cfg b a hmem hmap hadm
    unfold mapMMChannelToEntity at hmap
    rcases hp : mmDisplayPass disp matrix with _ | r
    · have := mmDisplayPass_isSome hmem hadm
      rw [hp] at this
      cases this
    · rw [hp] at hmap
      obtain rfl : r = (K, b) := Option.some_injective _ hmap
      obtain ⟨cfg', hmem', hm'⟩ := mmDisplayPass_mem hp
      rw [keyUnique hnd hmem' hmem] at hm'
      rcases hm' with hm' | ⟨hnone, _⟩
      · rw [hm'] at hadm
        exact Option.some_injective _ hadm
      · rw [hnone] at hadm
        cases hadm
  · intro pre K cfg post a hsplit hpre hadm
    have : authAdminPass name (pre ++ (K, cfg) :: post) = some (K, a) :=
      authAdminPass_append hpre hadm
    rw [← hsplit] at this
    unfold mapAuthGroupToEntity
    rw [this]
  · intro pre K cfg post a hsplit hpre hadm
    have : mmDisplayPass disp (pre ++ (K, cfg) :: post) = some (K, a) :=
      mmDisplayPass_append hpre hadm
    rw [← hsplit] at this
    unfold mapMMChannelToEntity
    rw [this]

/-- Witness for C8: `proj_orion_admin` is matched by both the admin and the
standard group pattern; under both lookups the admin extraction wins. -/
theorem c8_admin_first_witness :
    mapAuthGroupToEntity "proj_orion_admin".toList c8Matrix =
      some ("PROJECT".toList, "orion".toList) ∧
    mapMMChannelToEntity "project-orion-admin".toList
        "Project Orion Admin".toList c8Matrix =
      some ("PROJECT".toList, "Orion".toList) := by
  have h := c8_admin_first c8Matrix "proj_orion_admin".toList
    "project-orion-admin".toList "Project Orion Admin".toList (by decide)
  refine ⟨?_, ?_⟩
  · exact h.2.2.1 [] _ _ [] _ rfl (by simp) (by decide)
  · exact h.2.2.2 [] _ _ [] _ rfl (by simp) (by decide)

/-! ### Structural lemmas about the Authentik reconciler -/

theorem dictLookup_mem {V : Type} {d : Dict V} {k : Str} {v : V}
    (h : dictLookup d k = some v) : (k, v) ∈ d := by
  induction d with
  | nil => simp [dictLookup] at h
  | cons hd t ih =>
    obtain ⟨k', v'⟩ := hd
    unfold dictLookup at h
    by_cases hk : k' = k
    · rw [if_pos hk] at h
      obtain rfl := Option.some_injective _ h
      subst hk
      exact List.mem_cons_self _ _
    · rw [if_neg hk] at h
      exact List.mem_cons_of_mem _ (ih h)

theorem ensureUsersAuthAux_target {env : AuthentikEnv} {gpk gname : Str}
    {m : Dict Str} {log : Str} {cur : List Str} :
    ∀ users, ∀ r ∈ (ensureUsersAuthAux env gpk gname m log cur users).1,
      r.target_resource_name = gname := by
  intro users
  induction users with
  | nil => intro r hr; simp [ensureUsersAuthAux] at hr
  | cons u rest ih =>
    intro r hr
    unfold ensureUsersAuthAux at hr
    by_cases hex : u.username ∈ env.excluded
    · rw [if_pos hex] at hr
      exact ih r hr
    · rw [if_neg hex] at hr
      by_cases hem : lowerStr u.email = []
      · rw [if_pos hem] at hr
        rcases List.mem_cons.1 hr with rfl | hr'
        · rfl
        · exact ih r hr'
      · rw [if_neg hem] at hr
        rcases hlk : dictLookup m (lowerStr u.email) with _ | pk <;> rw [hlk] at hr
        · rcases List.mem_cons.1 hr with rfl | hr'
          · rfl
          · exact ih r hr'
        · rcases List.mem_cons.1 hr with rfl | hr'
          · by_cases h1 : pk ∉ cur
            · rw [if_pos h1]
              by_cases h2 : env.add_user_to_group gpk pk = true
              · rw [if_pos h2]; rfl
              · rw [if_neg h2]; rfl
            · rw [if_neg h1]; rfl
          · exact ih r hr'

theorem ensureUsersAuthAux_username {env : AuthentikEnv} {gpk gname : Str}
    {m : Dict Str} {log : Str} {cur : List Str} :
    ∀ users, ∀ r ∈ (ensureUsersAuthAux env gpk gname m log cur users).1,
      r.mm_username ∈ users.map (fun u => some u.username) := by
  intro users
  induction users with
  | nil => intro r hr; simp [ensureUsersAuthAux] at hr
  | cons u rest ih =>
    intro r hr
    unfold ensureUsersAuthAux at hr
    by_cases hex : u.username ∈ env.excluded
    · rw [if_pos hex] at hr
      exact List.mem_cons_of_mem _ (ih r hr)
    · rw [if_neg hex] at hr
      by_cases hem : lowerStr u.email = []
      · rw [if_pos hem] at hr
        rcases List.mem_cons.1 hr with rfl | hr'
        · exact List.mem_cons_self _ _
        · exact List.mem_cons_of_mem _ (ih r hr')
      · rw [if_neg hem] at hr
        rcases hlk : dictLookup m (lowerStr u.email) with _ | pk <;> rw [hlk] at hr
        · rcases List.mem_cons.1 hr with rfl | hr'
          · exact List.mem_cons_self _ _
          · exact List.mem_cons_of_mem _ (ih r hr')
        · rcases List.mem_cons.1 hr with rfl | hr'
          · refine List.mem_cons.2 (Or.inl ?_)
            by_cases h1 : pk ∉ cur
            · rw [if_pos h1]
              by_cases h2 : env.add_user_to_group gpk pk = true
              · rw [if_pos h2]; rfl
              · rw [if_neg h2]; rfl
            · rw [if_neg h1]; rfl
          · exact List.mem_cons_of_mem _ (ih r hr')

theorem ensureUsersAuthAux_targeted {env : AuthentikEnv} {gpk gname : Str}
    {m : Dict Str} {log : Str} {cur : List Str} :
    ∀ users u pk, u ∈ users → u.username ∉ env.excluded →
      lowerStr u.email ≠ [] → dictLookup m (lowerStr u.email) = some pk →
      pk ∈ (ensureUsersAuthAux env gpk gname m log cur users).2 := by
  intro users
  induction users with
  | nil => intro u pk hu; cases hu
  | cons v rest ih =>
    intro u pk hu hex hem hlk
    unfold ensureUsersAuthAux
    rcases List.mem_cons.1 hu with rfl | hu'
    · rw [if_neg hex, if_neg hem, hlk]
      simp only [insertIfAbsent]
      split
      · assumption
      · simp
    · by_cases hvex : v.username ∈ env.excluded
      · rw [if_pos hvex]
        exact ih u pk hu' hex hem hlk
      · rw [if_neg hvex]
        by_cases hvem : lowerStr v.email = []
        · rw [if_pos hvem]
          exact ih u pk hu' hex hem hlk
        · rw [if_neg hvem]
          rcases hvlk : dictLookup m (lowerStr v.email) with _ | pkv

          · exact ih u pk hu' hex hem hlk
          · simp only [insertIfAbsent]
            have hmem := ih u pk hu' hex hem hlk
            split
            · exact hmem
            · exact List.mem_append_left _ hmem

/-- **C10** (implicit).  In upsert mode, when the identity-provider group named
by the standard pattern — or, for an entity kind with an admin block, the one
named by the admin pattern — is absent from the pre-fetched group map,
`group_sync` issues a `create_group` call for that name but performs no
membership synchronization for it in the same run: no result record targets
the freshly created group. -/
theorem c10_fresh_group_created_not_synced (env : AuthentikEnv) (base_name : Str)
    (cfg : EntityCfg) (groupsByName : Dict AuthGroup)
    (std_users adm_users : List MMUser) (log : Str)
    (hwf : ∀ p ∈ groupsByName, (p.2 : AuthGroup).name = p.1) :
    (dictLookup groupsByName
        (renderPattern (cfg.standard.authentik_group_name_pattern.getD placeholder)
          base_name) = none →
      renderPattern (cfg.standard.authentik_group_name_pattern.getD placeholder)
          base_name ∈
        (authentikGroupSync env base_name cfg groupsByName std_users adm_users log).2 ∧
      ∀ r ∈ (authentikGroupSync env base_name cfg groupsByName std_users adm_users log).1,
        r.target_resource_name ≠
          renderPattern (cfg.standard.authentik_group_name_pattern.getD placeholder)
            base_name) ∧
    (∀ acfg, cfg.admin = some acfg →
      dictLookup groupsByName
        (renderPattern (acfg.authentik_group_name_pattern.getD
          "{base_name} Admin".toList) base_name) = none →
      renderPattern (acfg.authentik_group_name_pattern.getD
          "{base_name} Admin".toList) base_name ∈
        (authentikGroupSync env base_name cfg groupsByName std_users adm_users log).2 ∧
      ∀ r ∈ (authentikGroupSync env base_name cfg groupsByName std_users adm_users log).1,
        r.target_resource_name ≠
          renderPattern (acfg.authentik_group_name_pattern.getD
            "{base_name} Admin".toList) base_name) := by
  constructor
  · intro hstd
    simp only [authentikGroupSync]
    rw [hstd]
    rcases cfg.admin with _ | acfg
    · dsimp only
      refine ⟨List.mem_singleton_self _, ?_⟩
      intro r hr
      simp at hr
    · dsimp only
      rcases hadm : dictLookup groupsByName
          (renderPattern (acfg.authentik_group_name_pattern.getD
            "{base_name} Admin".toList) base_name) with _ | g
      · dsimp only
        refine ⟨List.mem_append_left _ (List.mem_singleton_self _), ?_⟩
        intro r hr
        simp at hr
      · dsimp only
        refine ⟨List.mem_singleton_self _, ?_⟩
        intro r hr
        rw [List.nil_append] at hr
        have hname : g.name =
            renderPattern (acfg.authentik_group_name_pattern.getD
              "{base_name} Admin".toList) base_name :=
          hwf _ (dictLookup_mem hadm)
        have htar : r.target_resource_name = g.name := by
          unfold syncSingleAuthentikGroup at hr
          split at hr
          · rcases List.mem_singleton.1 hr with rfl
            rfl
          · unfold ensureUsersInAuthentikGroup at hr
            split at hr
            · simp at hr
            · exact ensureUsersAuthAux_target _ r hr
        intro hcon
        rw [htar, hname] at hcon
        rw [hcon] at hadm
        rw [hadm] at hstd
        cases hstd
  · intro acfg hacfg hadm
    simp only [authentikGroupSync]
    rw [hacfg]
    dsimp only
    rw [hadm]
    rcases hstd : dictLookup groupsByName
        (renderPattern (cfg.standard.authentik_group_name_pattern.getD placeholder)
          base_name) with _ | g
    · dsimp only
      refine ⟨List.mem_append_right _ (List.mem_singleton_self _), ?_⟩
      intro r hr
      simp at hr
    · dsimp only
      refine ⟨List.mem_append_right _ (List.mem_singleton_self _), ?_⟩
      intro r hr
      have hname : g.name =
          renderPattern (cfg.standard.authentik_group_name_pattern.getD placeholder)
            base_name :=
        hwf _ (dictLookup_mem hstd)
      have htar : r.target_resource_name = g.name := by
        unfold syncSingleAuthentikGroup at hr
        split at hr
        · rcases List.mem_singleton.1 hr with rfl
          rfl
        · unfold ensureUsersInAuthentikGroup at hr
          split at hr
          · simp at hr
          · exact ensureUsersAuthAux_target _ r hr
      intro hcon
      rw [htar, hname] at hcon
      rw [← hcon] at hadm
      rw [hstd] at hadm
      cases hadm

/-- Witness for C10: with no pre-fetched groups, syncing entity `orion` under
the standard pattern `grp-{base_name}` and the admin pattern `adm-{base_name}`
creates both `grp-orion` and `adm-orion` and emits no records. -/
theorem c10_fresh_group_created_not_synced_witness :
    "grp-orion".toList ∈
      (authentikGroupSync authEnvTrivial "orion".toList c10Cfg
        [] [] [] "log".toList).2 ∧
    "adm-orion".toList ∈
      (authentikGroupSync authEnvTrivial "orion".toList c10Cfg
        [] [] [] "log".toList).2 ∧
    (authentikGroupSync authEnvTrivial "orion".toList c10Cfg
        [] [] [] "log".toList).1 = [] := by
  have h := c10_fresh_group_created_not_synced authEnvTrivial "orion".toList c10Cfg
    [] [] [] "log".toList (by simp)
  have h1 := (h.1 (by decide)).1
  have h2 := (h.2 { authentik_group_name_pattern := some "adm-{base_name}".toList }
    rfl (by decide)).1
  have he1 : renderPattern
      (c10Cfg.standard.authentik_group_name_pattern.getD placeholder)
      "orion".toList = "grp-orion".toList := by decide
  have he2 : renderPattern
      (({ mattermost_channel_name_pattern := none
          authentik_group_name_pattern := some "adm-{base_name}".toList } :
        ChannelCfg).authentik_group_name_pattern.getD "{base_name} Admin".toList)
      "orion".toList = "adm-orion".toList := by decide
  refine ⟨?_, ?_, by decide⟩
  · rw [he1] at h1
    exact h1
  · rw [he2] at h2
    exact h2

/-- Counterexample to C3.  Bob is a member of the admin channel (`c2`) and of
the standard group `grp-orion`, but absent from the standard channel (`c1`).
The claim says his admin-channel membership must prevent removal from the
standard group; the code nevertheless emits a `USER_REMOVED_FROM_AUTHENTIK_GROUP`
record for him — the standard group is synced against the standard channel
only, the admin members are not merged in. -/
theorem c3_counterexample :
    (authentikDifferentialSync c3Env c3MM c3Matrix c3Members).map
        (fun r => (r.target_resource_name, r.action, r.mm_user_email)) =
      [("grp-orion".toList, "USER_REMOVED_FROM_AUTHENTIK_GROUP".toList,
        some "b@x".toList)] ∧
    c3MM.get_channel_by_name (slugify "orion-admin".toList) = some "c2".toList ∧
    (dictLookup c3Members "c2".toList).getD [] = [bobMM] ∧
    lowerStr bobMM.email = "b@x".toList := by
  decide

/-- **C3** as amended.  The identity-provider reconciler does not merge admin
members into the standard set: (i) in upsert mode, every record produced by
the ensure step carries a username from the channel-member list the group is
synced against, so an admin-channel-only user receives no record for (and is
not added to) the standard group; (ii) in differential mode, removal from a
standard group is decided by absence from the standard channel alone — a
non-excluded member missing from the standard channel is removed even when
they sit in the admin channel. -/
theorem c3_amended_no_admin_merge :
    (∀ (env : AuthentikEnv) (gpk gname : Str) (users : List MMUser)
        (m : Dict Str) (log : Str) (cur : List Str),
      ∀ r ∈ (ensureUsersInAuthentikGroup env gpk gname users m log cur).1,
        r.mm_username ∈ users.map (fun u => some u.username)) ∧
    (∀ (env : AuthentikEnv) (mm : MMEnv) (matrix : Matrix)
        (all_members : Dict (List MMUser)) (email_to_pk : Dict Str)
        (g : AuthGroup) (k b : Str) (u : AuthUser),
      mapAuthGroupToEntity g.name matrix = some (k, b) →
      k ≠ [] → b ≠ [] →
      authGroupIsAdmin ((dictLookup matrix k).getD {}) g.name = false →
      u ∈ g.users_obj →
      lowerStr u.email ≠ [] →
      lowerStr u.email ∉
        ((getMMUsersForEntity mm b ((dictLookup matrix k).getD {}) all_members).2.1.map
          (fun v => lowerStr v.email)) →
      u.username ∉ env.excluded →
      removeUserFromAuthentikGroup env g.pk g.name u.pk (lowerStr u.email) b ∈
        authentikDiffGroup env mm matrix all_members email_to_pk g) := by
  constructor
  · intro env gpk gname users m log cur r hr
    unfold ensureUsersInAuthentikGroup at hr
    split at hr
    · simp at hr
    · exact ensureUsersAuthAux_username users r hr
  · intro env mm matrix all_members email_to_pk g k b u hmap hk hb hadm hu hem hnot hexc
    unfold authentikDiffGroup
    rw [hmap]
    try dsimp only
    rw [if_neg (by push_neg; exact ⟨hk, hb⟩)]
    rw [hadm]
    try dsimp only
    refine List.mem_append_left _ ?_
    refine List.mem_filterMap.2 ⟨u, hu, ?_⟩
    try dsimp only
    rw [if_pos ⟨hem, hnot⟩, if_neg hexc]

/-- Witness for the amended C3: in the concrete scenario above, the one upsert
record of the ensure step names bob (a member of the supplied list), and the
differential run does contain bob's standard-group removal record. -/
theorem c3_amended_no_admin_merge_witness :
    ({ service := "AUTHENTIK".toList
       target_resource_name := "grp-orion".toList
       mm_username := some "bob".toList
       mm_user_email := some "b@x".toList
       mm_channel_display_name := some "orion".toList
       status := SUCCESS
       action := "USER_ADDED_TO_AUTHENTIK_GROUP".toList } : Rec).mm_username ∈
      [bobMM].map (fun u => some u.username) ∧
    removeUserFromAuthentikGroup c3Env "g1".toList "grp-orion".toList
        "p1".toList "b@x".toList "orion".toList ∈
      authentikDiffGroup c3Env c3MM c3Matrix c3Members
        [("b@x".toList, "p1".toList)] c3Group := by
  constructor
  · exact c3_amended_no_admin_merge.1 c3Env "g1".toList "grp-orion".toList
      [bobMM] [("b@x".toList, "p1".toList)] "orion".toList []
      _ (by decide)
  · have := c3_amended_no_admin_merge.2 c3Env c3MM c3Matrix c3Members
      [("b@x".toList, "p1".toList)] c3Group "K".toList "orion".toList bobAuth
      (by decide) (by decide) (by decide) (by decide) (by decide) (by decide)
      (by decide) (by decide)
    simpa using this

/-- Counterexample to C4.  The upsert logic over the discovered entity `orion`
produces a record for bob, while `differential_sync` returns no records at all
on the same pre-fetched channel-member map — the two are not the same, and
differential is empty. -/
theorem c4_counterexample :
    brevoDifferentialSync c3Members = [] ∧
    brevoGroupSync c4Env "orion".toList c4Cfg [bobMM] "log".toList ≠ [] ∧
    brevoGroupSync c4Env "orion".toList c4Cfg [bobMM] "log".toList ≠
      brevoDifferentialSync c3Members := by
  refine ⟨rfl, ?_, ?_⟩ <;> decide

/-- **C4** as amended.  `BrevoService.differential_sync` is a no-op: it
performs no operations and returns no result records, whatever the
pre-fetched channel-member map; the additive contact-ensure logic runs only
through `group_sync` (upsert mode), which can produce records. -/
theorem c4_brevo_differential_noop :
    (∀ m : Dict (List MMUser), brevoDifferentialSync m = []) ∧
    brevoGroupSync c4Env "orion".toList c4Cfg [bobMM] "log".toList =
      [{ service := "BREVO".toList
         target_resource_name := "mm_orion".toList
         mm_username := some "bob".toList
         mm_user_email := some "b@x".toList
         mm_channel_display_name := some "log".toList
         status := SUCCESS
         action := "USER_ENSURED_IN_BREVO_LIST".toList }] := by
  exact ⟨fun _ => rfl, by decide⟩

/-! ### C5: upsert idempotence -/

theorem c5AuthHelper {env : AuthentikEnv} {gpk gname : Str} {m : Dict Str}
    {log : Str} {cur : List Str} :
    ∀ users : List MMUser,
      (∀ u ∈ users, u.username ∉ env.excluded →
        lowerStr u.email ≠ [] ∧
        ∃ pk, dictLookup m (lowerStr u.email) = some pk ∧ pk ∈ cur) →
      ∀ r ∈ (ensureUsersAuthAux env gpk gname m log cur users).1,
        r.status = SUCCESS ∧ r.action = "USER_ALREADY_IN_AUTHENTIK_GROUP".toList := by
  intro users
  induction users with
  | nil => intro _ r hr; simp [ensureUsersAuthAux] at hr
  | cons u rest ih =>
    intro h r hr
    have htail := ih fun v hv => h v (List.mem_cons_of_mem _ hv)
    unfold ensureUsersAuthAux at hr
    by_cases hex : u.username ∈ env.excluded
    · rw [if_pos hex] at hr
      exact htail r hr
    · rw [if_neg hex] at hr
      obtain ⟨hem, pk, hlk, hin⟩ := h u (List.mem_cons_self _ _) hex
      rw [if_neg hem, hlk] at hr
      rcases List.mem_cons.1 hr with rfl | hr'
      · rw [if_neg (by simpa using hin)]
        exact ⟨rfl, rfl⟩
      · exact htail r hr'

theorem brevoEnsureAux_success_action {env : BrevoEnv} {list_id : Nat}
    {lname log : Str} :
    ∀ users : List MMUser,
      ∀ r ∈ (ensureContactsBrevoAux env list_id lname log users).1,
        r.status = SUCCESS → r.action = "USER_ENSURED_IN_BREVO_LIST".toList := by
  intro users
  induction users with
  | nil => intro r hr; simp [ensureContactsBrevoAux] at hr
  | cons u rest ih =>
    intro r hr hs
    unfold ensureContactsBrevoAux at hr
    by_cases hex : u.username ∈ env.excluded
    · rw [if_pos hex] at hr
      exact ih r hr hs
    · rw [if_neg hex] at hr
      by_cases hem : u.email = []
      · rw [if_pos hem] at hr
        rcases List.mem_cons.1 hr with rfl | hr'
        · have hs' : SKIPPED = SUCCESS := hs
          exact absurd hs' (by decide)
        · exact ih r hr' hs
      · rw [if_neg hem] at hr
        rcases List.mem_cons.1 hr with rfl | hr'
        · by_cases hadd : env.add_contact_to_list u.email list_id = true
          · rw [if_pos hadd]
          · rw [if_neg hadd] at hs
            have hs' : FAILURE = SUCCESS := hs
            exact absurd hs' (by decide)
        · exact ih r hr' hs

theorem nocoEnsureAux_already {env : NocodbEnv} {bid btitle dp ap : Str}
    {cmap : Dict NocoUser} {log : Str} :
    ∀ users : Dict UserInfo,
      (∀ p ∈ users, p.2.username ∉ env.excluded →
        ∃ nu, dictLookup cmap p.1 = some nu ∧
          nu.roles = (if p.2.is_admin_channel_member then ap else dp)) →
      ∀ r ∈ (ensureUsersNocoAux env bid btitle dp ap cmap log users).1,
        r.status = SUCCESS ∧
          r.action = "NOCODB_USER_ALREADY_IN_BASE_WITH_CORRECT_ROLE".toList := by
  intro users
  induction users with
  | nil => intro _ r hr; simp [ensureUsersNocoAux] at hr
  | cons p rest ih =>
    obtain ⟨email, info⟩ := p
    intro h r hr
    have htail := ih fun q hq => h q (List.mem_cons_of_mem _ hq)
    unfold ensureUsersNocoAux at hr
    by_cases hex : info.username ∈ env.excluded
    · rw [if_pos hex] at hr
      exact htail r hr
    · rw [if_neg hex] at hr
      obtain ⟨nu, hlk, hrole⟩ := h (email, info) (List.mem_cons_self _ _) hex
      rw [hlk] at hr
      rcases List.mem_cons.1 hr with rfl | hr'
      · rw [if_neg (not_not_intro hrole)]
        exact ⟨rfl, rfl⟩
      · exact htail r hr'

theorem outlineEnsureAux_already {env : OutlineEnv} {cid cname dp ap : Str}
    {cur : List Str} {log : Str} :
    ∀ users : Dict UserInfo,
      (∀ p ∈ users, p.2.username ∉ env.excluded →
        ∃ oid, env.get_user_by_email p.1 = some oid ∧ oid ∈ cur ∧
          env.add_user_to_collection cid oid
            (if p.2.is_admin_channel_member then ap else dp) = true) →
      ∀ r ∈ (ensureUsersOutlineAux env cid cname dp ap cur log users).1,
        r.status = SUCCESS ∧
          r.action = "USER_ALREADY_IN_OUTLINE_COLLECTION_PERMISSION_ENSURED".toList := by
  intro users
  induction users with
  | nil => intro _ r hr; simp [ensureUsersOutlineAux] at hr
  | cons p rest ih =>
    obtain ⟨email, info⟩ := p
    intro h r hr
    have htail := ih fun q hq => h q (List.mem_cons_of_mem _ hq)
    unfold ensureUsersOutlineAux at hr
    by_cases hex : info.username ∈ env.excluded
    · rw [if_pos hex] at hr
      exact htail r hr
    · rw [if_neg hex] at hr
      obtain ⟨oid, hlk, hin, hadd⟩ := h (email, info) (List.mem_cons_self _ _) hex
      rw [hlk] at hr
      rcases List.mem_cons.1 hr with rfl | hr'
      · rw [if_pos hadd, if_pos hin]
        exact ⟨rfl, rfl⟩
      · exact htail r hr'

/-- **C5** as amended.  (i) For the identity-provider reconciler the claim
holds: when every non-excluded authoritative user has an email and a provider
id, a second `ensure` run — against the group state left by a fully successful
first run, i.e. the original members plus every pk the first run targeted —
produces only SUCCESS records tagged `USER_ALREADY_IN_AUTHENTIK_GROUP`.
(ii) It holds for the database reconciler: against the base state left by a
fully successful first run — every non-excluded member present in the base
with exactly the target role — the second ensure run produces only SUCCESS
records tagged `NOCODB_USER_ALREADY_IN_BASE_WITH_CORRECT_ROLE`.  (iii) It
holds for the documentation reconciler: when every non-excluded member
resolves to an Outline account already among the collection members and the
permission re-assertion succeeds, the second ensure run produces only SUCCESS
records tagged `USER_ALREADY_IN_OUTLINE_COLLECTION_PERMISSION_ENSURED`.
(iv) The email reconciler breaks the claim as stated for *every* reconciler:
its upsert-contact step re-issues the idempotent upsert on the second run, so
its SUCCESS records always carry `USER_ENSURED_IN_BREVO_LIST`, which is not an
`*_ALREADY_*` variant. -/
theorem c5_second_run_idempotence :
    (∀ (env : AuthentikEnv) (gpk gname : Str) (users : List MMUser)
        (m : Dict Str) (log : Str) (cur : List Str),
      (∀ u ∈ users, u.username ∉ env.excluded →
        lowerStr u.email ≠ [] ∧ (dictLookup m (lowerStr u.email)).isSome) →
      ∀ r ∈ (ensureUsersInAuthentikGroup env gpk gname users m log
          (cur ++ (ensureUsersInAuthentikGroup env gpk gname users m log cur).2)).1,
        r.status = SUCCESS ∧ r.action = "USER_ALREADY_IN_AUTHENTIK_GROUP".toList) ∧
    (∀ (env : NocodbEnv) (bid btitle : Str) (users : Dict UserInfo)
        (dp ap : Str) (cmap : Dict NocoUser) (log : Str),
      (∀ p ∈ users, p.2.username ∉ env.excluded →
        ∃ nu, dictLookup cmap p.1 = some nu ∧
          nu.roles = (if p.2.is_admin_channel_member then ap else dp)) →
      ∀ r ∈ (ensureUsersInNocodbBase env bid btitle users dp ap cmap log).1,
        r.status = SUCCESS ∧
          r.action = "NOCODB_USER_ALREADY_IN_BASE_WITH_CORRECT_ROLE".toList) ∧
    (∀ (env : OutlineEnv) (cid cname : Str) (users : Dict UserInfo)
        (dp ap : Str) (cur : List Str) (log : Str),
      (∀ p ∈ users, p.2.username ∉ env.excluded →
        ∃ oid, env.get_user_by_email p.1 = some oid ∧ oid ∈ cur ∧
          env.add_user_to_collection cid oid
            (if p.2.is_admin_channel_member then ap else dp) = true) →
      ∀ r ∈ (ensureUsersInOutlineCollection env cid cname users dp ap cur log).1,
        r.status = SUCCESS ∧
          r.action = "USER_ALREADY_IN_OUTLINE_COLLECTION_PERMISSION_ENSURED".toList) ∧
    (∀ (env : BrevoEnv) (list_id : Nat) (lname : Str) (users : List MMUser)
        (log : Str),
      ∀ r ∈ (ensureContactsInBrevoList env list_id lname users log).1,
        r.status = SUCCESS → r.action = "USER_ENSURED_IN_BREVO_LIST".toList) := by
  refine ⟨?_, ?_, ?_, ?_⟩
  · intro env gpk gname users m log cur h r hr
    unfold ensureUsersInAuthentikGroup at hr
    split at hr
    · simp at hr
    · refine c5AuthHelper users ?_ r hr
      intro u hu hex
      obtain ⟨hem, hsome⟩ := h u hu hex
      obtain ⟨pk, hpk⟩ := Option.isSome_iff_exists.1 hsome
      refine ⟨hem, pk, hpk, List.mem_append_right _ ?_⟩
      exact ensureUsersAuthAux_targeted users u pk hu hex hem hpk
  · intro env bid btitle users dp ap cmap log h r hr
    unfold ensureUsersInNocodbBase at hr
    split at hr
    · simp at hr
    · exact nocoEnsureAux_already users h r hr
  · intro env cid cname users dp ap cur log h r hr
    unfold ensureUsersInOutlineCollection at hr
    split at hr
    · simp at hr
    · exact outlineEnsureAux_already users h r hr
  · intro env list_id lname users log r hr
    unfold ensureContactsInBrevoList at hr
    split at hr
    · simp at hr
    · exact brevoEnsureAux_success_action users r hr

/-- Counterexample to C5 as stated for every reconciler: a second Brevo upsert
run (the environment is exactly the post-first-run state — the list exists and
the upsert endpoint keeps succeeding) produces a SUCCESS record whose tag
`USER_ENSURED_IN_BREVO_LIST` contains no `ALREADY`. -/
theorem c5_counterexample :
    (brevoGroupSync c4Env "orion".toList c4Cfg [bobMM] "log".toList).map
        (fun r => (r.status, r.action)) =
      [(SUCCESS, "USER_ENSURED_IN_BREVO_LIST".toList)] ∧
    containsSub "ALREADY".toList "USER_ENSURED_IN_BREVO_LIST".toList = false := by
  decide

/-- Witness for the amended C5, at concrete second-run scenarios: bob is
already in the identity-provider group, already in the database base with the
correct role, and already a member of the documentation collection — each
record carries the corresponding "already" tag — while the Brevo SUCCESS
record keeps the ensure tag. -/
theorem c5_second_run_idempotence_witness :
    (c5AlreadyRec.status = SUCCESS ∧
      c5AlreadyRec.action = "USER_ALREADY_IN_AUTHENTIK_GROUP".toList) ∧
    (c5NocoRec.status = SUCCESS ∧
      c5NocoRec.action = "NOCODB_USER_ALREADY_IN_BASE_WITH_CORRECT_ROLE".toList) ∧
    (c5OlRec.status = SUCCESS ∧
      c5OlRec.action = "USER_ALREADY_IN_OUTLINE_COLLECTION_PERMISSION_ENSURED".toList) ∧
    ((ensureContactsInBrevoList c4Env 7 "mm_orion".toList [bobMM] "log".toList).1.headD
        { service := [], status := [], action := [] }).action =
      "USER_ENSURED_IN_BREVO_LIST".toList := by
  refine ⟨?_, ?_, ?_, ?_⟩
  · exact c5_second_run_idempotence.1 c3Env "g1".toList "grp-orion".toList
      [bobMM] [("b@x".toList, "p1".toList)] "orion".toList []
      (by intro u hu hex; simp at hu; subst hu; exact ⟨by decide, by decide⟩)
      c5AlreadyRec (by decide)
  · exact c5_second_run_idempotence.2.1 c5NocoEnv "b1".toList "db-orion".toList
      [("b@x".toList, ⟨"bob".toList, "u1".toList, false⟩)]
      "viewer".toList "owner".toList
      [("b@x".toList, ⟨"u1".toList, "b@x".toList, "viewer".toList⟩)] "orion".toList
      (by
        intro p hp hex
        rcases List.mem_singleton.1 hp with rfl
        exact ⟨⟨"u1".toList, "b@x".toList, "viewer".toList⟩, by decide, by decide⟩)
      c5NocoRec (by decide)
  · exact c5_second_run_idempotence.2.2.1 c5OlEnv "ol1".toList "doc-orion".toList
      [("b@x".toList, ⟨"bob".toList, "u1".toList, false⟩)]
      "read".toList "read_write".toList ["ou1".toList] "orion".toList
      (by
        intro p hp hex
        rcases List.mem_singleton.1 hp with rfl
        exact ⟨"ou1".toList, by decide, by decide, by decide⟩)
      c5OlRec (by decide)
  · exact c5_second_run_idempotence.2.2.2 c4Env 7 "mm_orion".toList [bobMM]
      "log".toList
      ((ensureContactsInBrevoList c4Env 7 "mm_orion".toList [bobMM] "log".toList).1.headD
        { service := [], status := [], action := [] })
      (by decide) (by decide)

/-- **C9** (delete ≡ role update).  The remove operation used by the database
reconciler is exactly the role-update operation with role `no-access`: the
client's delete delegates to the update, the request issued is the PATCH
role-update request (no first-class delete verb exists), and the differential
removal record's outcome is decided by that very request. -/
theorem c9_delete_is_noaccess_update :
    (∀ (env : NocodbEnv) (base_id user_id : Str),
      deleteBaseUser env base_id user_id =
        updateBaseUser env base_id user_id "no-access".toList) ∧
    (∀ base_id user_id : Str,
      deleteBaseUserRequest base_id user_id =
        updateBaseUserRequest base_id user_id "no-access".toList ∧
      (deleteBaseUserRequest base_id user_id).method = "patch".toList ∧
      (deleteBaseUserRequest base_id user_id).payload_roles = some "no-access".toList) ∧
    (∀ (env : NocodbEnv) (base_id base_title user_id user_email ctx : Str),
      (removeUserFromNocodbBase env base_id base_title user_id user_email ctx).status =
        if env.api (updateBaseUserRequest base_id user_id "no-access".toList)
        then SUCCESS else FAILURE) := by
  refine ⟨fun _ _ _ => rfl, fun _ _ => ⟨rfl, rfl, rfl⟩, ?_⟩
  intro env base_id base_title user_id user_email ctx
  unfold removeUserFromNocodbBase deleteBaseUser updateBaseUser
  split
  · rfl
  · rfl

/-- Counterexample to C7.  A 400 response whose body contains "already a
member" is treated as a successful invite, and the reconciler records SUCCESS
with `USER_INVITED_TO_VW_COLLECTION_AND_DM_SENT` — the action tag
`USER_ALREADY_INVITED` does not exist in the code. -/
theorem c7_counterexample :
    (c7Env.invite_response "alice@x".toList).status = 400 ∧
    containsSub "already a member".toList (lowerStr c7Body.errorModelMessage) = true ∧
    (ensureUsersInvitedToVwCollection c7Env "col1".toList "Shared - X".toList
        [("alice@x".toList, ⟨"alice".toList, "m1".toList, false⟩)]
        "log".toList "tok".toList).map (fun r => (r.status, r.action)) =
      [(SUCCESS, "USER_INVITED_TO_VW_COLLECTION_AND_DM_SENT".toList)] ∧
    ("USER_INVITED_TO_VW_COLLECTION_AND_DM_SENT".toList ≠ "USER_ALREADY_INVITED".toList) := by
  decide

/-- **C7** as amended.  When the server url is configured and the invite API
answers 400 with a parsed body containing one of the client's idempotency
phrases — "already a member", "user already invited", "is already a member",
"already in this collection", "user is already confirmed" (case-insensitive,
in `errorModel.message` or a `ValidationErrors` entry) — the client reports
success, and the reconciler records the subject with status SUCCESS and one of
the `USER_INVITED_TO_VW_COLLECTION*` action tags (never FAILURE; no
`USER_ALREADY_INVITED` tag exists). -/
theorem c7_idempotent_invite_success (env : VwEnv)
    (cid cname log tok email : Str) (info : UserInfo) (rest : Dict UserInfo)
    (hcid : cid ≠ []) (htok : tok ≠ [])
    (hexc : info.username ∉ env.excluded) (hem : email ≠ [])
    (hurl : truthy env.server_url ≠ none)
    (hst : (env.invite_response email).status = 400)
    (hbody : ∃ b, (env.invite_response email).body = some b ∧ vwIdempotentBody b = true) :
    ∃ r rs, ensureUsersInvitedToVwCollection env cid cname
        ((email, info) :: rest) log tok = r :: rs ∧
      r.status = SUCCESS ∧ r.action ∈ invitedVwActions ∧ r.status ≠ FAILURE := by
  obtain ⟨b, hb, hidem⟩ := hbody
  have hinv : inviteUserToCollection env.server_url (env.invite_response email) = true := by
    unfold inviteUserToCollection
    rw [if_neg hurl, if_neg (by omega : ¬ (env.invite_response email).status < 400),
      if_pos hst, hb]
    exact hidem
  unfold ensureUsersInvitedToVwCollection
  rw [if_neg hcid, if_neg htok]
  unfold ensureVwAux
  rw [if_neg hexc, if_neg hem, hinv]
  simp only [if_true]
  have hne : SUCCESS ≠ FAILURE := by decide
  rcases hurl' : truthy env.server_url with _ | u
  · exact absurd hurl' hurl
  · try dsimp only
    by_cases hmid : info.mm_user_id ≠ []
    · rw [if_pos hmid]
      by_cases hdm : env.send_dm info.mm_user_id = true
      · rw [if_pos hdm]
        exact ⟨_, _, rfl, rfl, by simp [invitedVwActions], fun hF => hne hF⟩
      · rw [if_neg hdm]
        exact ⟨_, _, rfl, rfl, by simp [invitedVwActions], fun hF => hne hF⟩
    · rw [if_neg hmid]
      exact ⟨_, _, rfl, rfl, by simp [invitedVwActions], fun hF => hne hF⟩

/-- Witness for the amended C7, at the concrete 400 "already a member"
response of the counterexample scenario. -/
theorem c7_idempotent_invite_success_witness :
    ((ensureUsersInvitedToVwCollection c7Env "col1".toList "Shared - X".toList
        [("alice@x".toList, ⟨"alice".toList, "m1".toList, false⟩)]
        "log".toList "tok".toList).headD
      { service := [], status := [], action := [] }).status = SUCCESS ∧
    ((ensureUsersInvitedToVwCollection c7Env "col1".toList "Shared - X".toList
        [("alice@x".toList, ⟨"alice".toList, "m1".toList, false⟩)]
        "log".toList "tok".toList).headD
      { service := [], status := [], action := [] }).action ∈ invitedVwActions := by
  obtain ⟨r, rs, heq, hs, ha, _⟩ :=
    c7_idempotent_invite_success c7Env "col1".toList "Shared - X".toList
      "log".toList "tok".toList "alice@x".toList
      ⟨"alice".toList, "m1".toList, false⟩ []
      (by decide) (by decide) (by decide) (by decide) (by decide) (by decide)
      ⟨c7Body, rfl, by decide⟩
  rw [heq]
  exact ⟨hs, ha⟩

/-! ### C1: exclusion lemmas -/

theorem ensureUsersAuthAux_excluded {env : AuthentikEnv} {gpk gname : Str}
    {m : Dict Str} {log : Str} {cur : List Str} :
    ∀ users, ∀ r ∈ (ensureUsersAuthAux env gpk gname m log cur users).1,
      ∀ nm, r.mm_username = some nm → nm ∉ env.excluded := by
  intro users
  induction users with
  | nil => intro r hr; simp [ensureUsersAuthAux] at hr
  | cons u rest ih =>
    intro r hr nm hnm
    unfold ensureUsersAuthAux at hr
    by_cases hex : u.username ∈ env.excluded
    · rw [if_pos hex] at hr
      exact ih r hr nm hnm
    · rw [if_neg hex] at hr
      by_cases hem : lowerStr u.email = []
      · rw [if_pos hem] at hr
        rcases List.mem_cons.1 hr with rfl | hr'
        · obtain rfl : u.username = nm := Option.some_injective _ hnm
          exact hex
        · exact ih r hr' nm hnm
      · rw [if_neg hem] at hr
        rcases hlk : dictLookup m (lowerStr u.email) with _ | pk <;> rw [hlk] at hr
        · rcases List.mem_cons.1 hr with rfl | hr'
          · obtain rfl : u.username = nm := Option.some_injective _ hnm
            exact hex
          · exact ih r hr' nm hnm
        · rcases List.mem_cons.1 hr with rfl | hr'
          · revert hnm
            by_cases h1 : pk ∉ cur
            · rw [if_pos h1]
              by_cases h2 : env.add_user_to_group gpk pk = true
              · rw [if_pos h2]
                intro hnm
                obtain rfl : u.username = nm := Option.some_injective _ hnm
                exact hex
              · rw [if_neg h2]
                intro hnm
                obtain rfl : u.username = nm := Option.some_injective _ hnm
                exact hex
            · rw [if_neg h1]
              intro hnm
              obtain rfl : u.username = nm := Option.some_injective _ hnm
              exact hex
          · exact ih r hr' nm hnm

theorem ensureUsersNocoAux_excluded {env : NocodbEnv} {bid btitle dp ap : Str}
    {cmap : Dict NocoUser} {log : Str} :
    ∀ users, ∀ r ∈ (ensureUsersNocoAux env bid btitle dp ap cmap log users).1,
      ∀ nm, r.mm_username = some nm → nm ∉ env.excluded := by
  intro users
  induction users with
  | nil => intro r hr; simp [ensureUsersNocoAux] at hr
  | cons p rest ih =>
    obtain ⟨email, info⟩ := p
    intro r hr nm hnm
    unfold ensureUsersNocoAux at hr
    by_cases hex : info.username ∈ env.excluded
    · rw [if_pos hex] at hr
      exact ih r hr nm hnm
    · rw [if_neg hex] at hr
      rcases hlk : dictLookup cmap email with _ | nu <;> rw [hlk] at hr
      · rcases List.mem_cons.1 hr with rfl | hr'
        · revert hnm
          by_cases h1 : env.invite_user_to_base bid email
              (if info.is_admin_channel_member then ap else dp) = true
          · rw [if_pos h1]
            by_cases h2 : info.mm_user_id ≠ [] ∧ truthy env.nocodb_url ≠ none
            · rw [if_pos h2]
              by_cases h3 : env.send_dm info.mm_user_id = true
              · rw [if_pos h3]
                intro hnm
                obtain rfl : info.username = nm := Option.some_injective _ hnm
                exact hex
              · rw [if_neg h3]
                intro hnm
                obtain rfl : info.username = nm := Option.some_injective _ hnm
                exact hex
            · rw [if_neg h2]
              by_cases h4 : truthy env.nocodb_url = none
              · rw [if_pos h4]
                intro hnm
                obtain rfl : info.username = nm := Option.some_injective _ hnm
                exact hex
              · rw [if_neg h4]
                intro hnm
                obtain rfl : info.username = nm := Option.some_injective _ hnm
                exact hex
          · rw [if_neg h1]
            intro hnm
            obtain rfl : info.username = nm := Option.some_injective _ hnm
            exact hex
        · exact ih r hr' nm hnm
      · rcases List.mem_cons.1 hr with rfl | hr'
        · revert hnm
          by_cases h1 : nu.roles ≠ (if info.is_admin_channel_member then ap else dp)
          · rw [if_pos h1]
            by_cases h2 : updateBaseUser env bid nu.id
                (if info.is_admin_channel_member then ap else dp) = true
            · rw [if_pos h2]
              intro hnm
              obtain rfl : info.username = nm := Option.some_injective _ hnm
              exact hex
            · rw [if_neg h2]
              intro hnm
              obtain rfl : info.username = nm := Option.some_injective _ hnm
              exact hex
          · rw [if_neg h1]
            intro hnm
            obtain rfl : info.username = nm := Option.some_injective _ hnm
            exact hex
        · exact ih r hr' nm hnm

theorem ensureContactsBrevoAux_excluded {env : BrevoEnv} {list_id : Nat}
    {lname log : Str} :
    ∀ users, ∀ r ∈ (ensureContactsBrevoAux env list_id lname log users).1,
      ∀ nm, r.mm_username = some nm → nm ∉ env.excluded := by
  intro users
  induction users with
  | nil => intro r hr; simp [ensureContactsBrevoAux] at hr
  | cons u rest ih =>
    intro r hr nm hnm
    unfold ensureContactsBrevoAux at hr
    by_cases hex : u.username ∈ env.excluded
    · rw [if_pos hex] at hr
      exact ih r hr nm hnm
    · rw [if_neg hex] at hr
      by_cases hem : u.email = []
      · rw [if_pos hem] at hr
        rcases List.mem_cons.1 hr with rfl | hr'
        · obtain rfl : u.username = nm := Option.some_injective _ hnm
          exact hex
        · exact ih r hr' nm hnm
      · rw [if_neg hem] at hr
        rcases List.mem_cons.1 hr with rfl | hr'
        · revert hnm
          by_cases h1 : env.add_contact_to_list u.email list_id = true
          · rw [if_pos h1]
            intro hnm
            obtain rfl : u.username = nm := Option.some_injective _ hnm
            exact hex
          · rw [if_neg h1]
            intro hnm
            obtain rfl : u.username = nm := Option.some_injective _ hnm
            exact hex
        · exact ih r hr' nm hnm

theorem ensureVwAux_excluded {env : VwEnv} {cid cname log : Str} :
    ∀ users, ∀ r ∈ ensureVwAux env cid cname log users,
      ∀ nm, r.mm_username = some nm → nm ∉ env.excluded := by
  intro users
  induction users with
  | nil => intro r hr; simp [ensureVwAux] at hr
  | cons p rest ih =>
    obtain ⟨email, info⟩ := p
    intro r hr nm hnm
    unfold ensureVwAux at hr
    by_cases hex : info.username ∈ env.excluded
    · rw [if_pos hex] at hr
      exact ih r hr nm hnm
    · rw [if_neg hex] at hr
      by_cases hem : email = []
      · rw [if_pos hem] at hr
        rcases List.mem_cons.1 hr with rfl | hr'
        · obtain rfl : info.username = nm := Option.some_injective _ hnm
          exact hex
        · exact ih r hr' nm hnm
      · rw [if_neg hem] at hr
        rcases List.mem_cons.1 hr with rfl | hr'
        · revert hnm
          by_cases h1 : inviteUserToCollection env.server_url
              (env.invite_response email) = true
          · rw [if_pos h1]
            by_cases h2 : info.mm_user_id ≠ []
            · rw [if_pos h2]
              rcases truthy env.server_url with _ | u'
              · intro hnm
                obtain rfl : info.username = nm := Option.some_injective _ hnm
                exact hex
              · by_cases h3 : env.send_dm info.mm_user_id = true
                · rw [if_pos h3]
                  intro hnm
                  obtain rfl : info.username = nm := Option.some_injective _ hnm
                  exact hex
                · rw [if_neg h3]
                  intro hnm
                  obtain rfl : info.username = nm := Option.some_injective _ hnm
                  exact hex
            · rw [if_neg h2]
              intro hnm
              obtain rfl : info.username = nm := Option.some_injective _ hnm
              exact hex
          · rw [if_neg h1]
            intro hnm
            obtain rfl : info.username = nm := Option.some_injective _ hnm
            exact hex
        · exact ih r hr' nm hnm

theorem ensureUsersOutlineAux_excluded {env : OutlineEnv} {cid cname dp ap : Str}
    {cur : List Str} {log : Str} :
    ∀ users, ∀ r ∈ (ensureUsersOutlineAux env cid cname dp ap cur log users).1,
      ∀ nm, r.mm_username = some nm → nm ∉ env.excluded := by
  intro users
  induction users with
  | nil => intro r hr; simp [ensureUsersOutlineAux] at hr
  | cons p rest ih =>
    obtain ⟨email, info⟩ := p
    intro r hr nm hnm
    unfold ensureUsersOutlineAux at hr
    by_cases hex : info.username ∈ env.excluded
    · rw [if_pos hex] at hr
      exact ih r hr nm hnm
    · rw [if_neg hex] at hr
      rcases hlk : env.get_user_by_email email with _ | oid <;> rw [hlk] at hr
      · rcases List.mem_cons.1 hr with rfl | hr'
        · obtain rfl : info.username = nm := Option.some_injective _ hnm
          exact hex
        · exact ih r hr' nm hnm
      · rcases List.mem_cons.1 hr with rfl | hr'
        · revert hnm
          by_cases h1 : env.add_user_to_collection cid oid
              (if info.is_admin_channel_member then ap else dp) = true
          · rw [if_pos h1]
            by_cases h2 : oid ∈ cur
            · rw [if_pos h2]
              intro hnm
              obtain rfl : info.username = nm := Option.some_injective _ hnm
              exact hex
            · rw [if_neg h2]
              intro hnm
              obtain rfl : info.username = nm := Option.some_injective _ hnm
              exact hex
          · rw [if_neg h1]
            by_cases h2 : oid ∈ cur
            · rw [if_pos h2]
              intro hnm
              obtain rfl : info.username = nm := Option.some_injective _ hnm
              exact hex
            · rw [if_neg h2]
              intro hnm
              obtain rfl : info.username = nm := Option.some_injective _ hnm
              exact hex
        · exact ih r hr' nm hnm

theorem removeAuthRec_fields (env : AuthentikEnv) (gpk gname upk e ctx : Str) :
    (removeUserFromAuthentikGroup env gpk gname upk e ctx).mm_user_email = some e ∧
    (removeUserFromAuthentikGroup env gpk gname upk e ctx).mm_username = none := by
  unfold removeUserFromAuthentikGroup
  split <;> exact ⟨rfl, rfl⟩

/-- Every record a differential Authentik group pass emits is either a removal
record for a *non-excluded* current member (its subject email is that member's
lower-cased email, and it carries no username), or an ensure record whose
username is not excluded. -/
theorem authentikDiffGroup_subjects (env : AuthentikEnv) (mm : MMEnv)
    (matrix : Matrix) (am : Dict (List MMUser)) (etk : Dict Str) (g : AuthGroup) :
    ∀ r ∈ authentikDiffGroup env mm matrix am etk g,
      (∃ v, v ∈ g.users_obj ∧ v.username ∉ env.excluded ∧
        r.mm_user_email = some (lowerStr v.email) ∧ r.mm_username = none) ∨
      (∃ nm, r.mm_username = some nm ∧ nm ∉ env.excluded) := by
  intro r hr
  unfold authentikDiffGroup at hr
  rcases hmap : mapAuthGroupToEntity g.name matrix with _ | kb
  · rw [hmap] at hr
    simp at hr
  · obtain ⟨k, b⟩ := kb
    rw [hmap] at hr
    try dsimp only at hr
    by_cases hkb : k = [] ∨ b = []
    · rw [if_pos hkb] at hr
      simp at hr
    · rw [if_neg hkb] at hr
      rcases List.mem_append.1 hr with hrem | hadd
      · obtain ⟨v, hv, hfv⟩ := List.mem_filterMap.1 hrem
        left
        refine ⟨v, hv, ?_⟩
        revert hfv
        try dsimp only
        by_cases h1 : lowerStr v.email ≠ [] ∧ lowerStr v.email ∉
            (if authGroupIsAdmin ((dictLookup matrix k).getD {}) g.name
              then (getMMUsersForEntity mm b ((dictLookup matrix k).getD {}) am).2.2
              else (getMMUsersForEntity mm b ((dictLookup matrix k).getD {}) am).2.1).map
              (fun u => lowerStr u.email)
        · rw [if_pos h1]
          by_cases h2 : v.username ∈ env.excluded
          · rw [if_pos h2]
            intro hfv
            cases hfv
          · rw [if_neg h2]
            intro hfv
            obtain rfl := Option.some_injective _ hfv
            obtain ⟨he, hn⟩ := removeAuthRec_fields env g.pk g.name v.pk (lowerStr v.email) b
            exact ⟨h2, he, hn⟩
        · rw [if_neg h1]
          intro hfv
          cases hfv
      · right
        rcases hmiss : (if authGroupIsAdmin ((dictLookup matrix k).getD {}) g.name
              then (getMMUsersForEntity mm b ((dictLookup matrix k).getD {}) am).2.2
              else (getMMUsersForEntity mm b ((dictLookup matrix k).getD {}) am).2.1).filter
            (fun u => lowerStr u.email ∉
              ((g.users_obj.filter (fun u => !u.email.isEmpty)).map
                (fun u => lowerStr u.email) : List Str)) with _ | ⟨mu, mrest⟩

        · rw [hmiss] at hadd
          simp at hadd
        · rw [hmiss] at hadd
          rw [if_neg (by simp)] at hadd
          unfold ensureUsersInAuthentikGroup at hadd
          split at hadd
          · simp at hadd
          · have h1 := ensureUsersAuthAux_username (mu :: mrest) r hadd
            obtain ⟨w, hw, hwnm⟩ := List.mem_map.1 h1
            exact ⟨w.username, hwnm.symm,
              ensureUsersAuthAux_excluded (mu :: mrest) r hadd w.username hwnm.symm⟩

theorem nocodbDiffBase_removes (env : NocodbEnv) (mm : MMEnv) (matrix : Matrix)
    (am : Dict (List MMUser)) (base : NocoBase) (k b : Str) (u : NocoUser)
    (hmap : mapNocoBaseToEntity base.title matrix = some (k, b))
    (hk : k ≠ []) (hb : b ≠ [])
    (hu : u ∈ env.list_base_users base.id)
    (hem : lowerStr u.email ≠ [])
    (hnot : lowerStr u.email ∉
      ((getMMUsersForEntity mm b ((dictLookup matrix k).getD {}) am).1.map
        (fun p => lowerStr p.1))) :
    removeUserFromNocodbBase env base.id base.title u.id (lowerStr u.email) b ∈
      nocodbDiffBase env mm matrix am base := by
  unfold nocodbDiffBase
  rw [hmap]
  try dsimp only
  rw [if_neg (by push_neg; exact ⟨hk, hb⟩)]
  refine List.mem_append_left _ ?_
  refine List.mem_filterMap.2 ⟨u, hu, ?_⟩
  try dsimp only
  rw [if_pos ⟨hem, hnot⟩]

theorem outlineDiffColl_removes (env : OutlineEnv) (mm : MMEnv) (matrix : Matrix)
    (am : Dict (List MMUser)) (coll : OutlineCollection) (k b : Str)
    (u : OutlineMember)
    (hmap : mapOutlineCollToEntity coll.name matrix = some (k, b))
    (hk : k ≠ []) (hb : b ≠ [])
    (hu : u ∈ env.get_collection_members_with_details coll.id)
    (hem : lowerStr u.email ≠ [])
    (hnot : lowerStr u.email ∉
      ((getMMUsersForEntity mm b ((dictLookup matrix k).getD {}) am).1.map
        (fun p => lowerStr p.1))) :
    removeUserFromOutlineCollection env coll.id coll.name u.id (lowerStr u.email) b ∈
      outlineDiffColl env mm matrix am coll := by
  unfold outlineDiffColl
  rw [hmap]
  try dsimp only
  rw [if_neg (by push_neg; exact ⟨hk, hb⟩)]
  refine List.mem_append_left _ ?_
  refine List.mem_filterMap.2 ⟨u, hu, ?_⟩
  try dsimp only
  rw [if_pos ⟨hem, hnot⟩]

/-- Counterexample to C1.  `xuser` is in the exclusion set, holds access to
the NocoDB base `db-orion` (email `x@y`), and is absent from the entity's
channels; the claim says differential sync must preserve them, but the
removal loop of `NocoDBService.differential_sync` has no exclusion check and
emits a SUCCESS removal record for `x@y`. -/
theorem c1_counterexample :
    "xuser".toList ∈ c1Env.excluded ∧
    (nocodbDifferentialSync c1Env c1MM c1Matrix c1Members).map
        (fun r => (r.action, r.mm_user_email, r.status)) =
      [("NOCODB_USER_REMOVED_FROM_BASE".toList, some "x@y".toList, SUCCESS)] := by
  decide

/-- **C1** as amended.  (i)–(v): the ensure (add/update/invite) loops of the
identity-provider, database, email, password and documentation reconcilers
skip excluded usernames before any write, so no ensure record carries an
excluded subject.  (vi): the identity-provider differential removal also skips
excluded members — when every current member sharing the excluded member's
email is excluded, no removal record for that member is emitted.  (vii) and
(viii): the database-base and documentation-collection differential removals,
however, consult no exclusion set: any downstream member whose (nonempty)
email is absent from the channel-derived map is removed, excluded or not. -/
theorem c1_exclusion_partially_enforced :
    (∀ (env : AuthentikEnv) (gpk gname : Str) (users : List MMUser)
        (m : Dict Str) (log : Str) (cur : List Str),
      ∀ r ∈ (ensureUsersInAuthentikGroup env gpk gname users m log cur).1,
        ∀ nm, r.mm_username = some nm → nm ∉ env.excluded) ∧
    (∀ (env : NocodbEnv) (bid btitle : Str) (users : Dict UserInfo)
        (dp ap : Str) (cmap : Dict NocoUser) (log : Str),
      ∀ r ∈ (ensureUsersInNocodbBase env bid btitle users dp ap cmap log).1,
        ∀ nm, r.mm_username = some nm → nm ∉ env.excluded) ∧
    (∀ (env : BrevoEnv) (list_id : Nat) (lname : Str) (users : List MMUser)
        (log : Str),
      ∀ r ∈ (ensureContactsInBrevoList env list_id lname users log).1,
        ∀ nm, r.mm_username = some nm → nm ∉ env.excluded) ∧
    (∀ (env : VwEnv) (cid cname : Str) (users : Dict UserInfo) (log tok : Str),
      ∀ r ∈ ensureUsersInvitedToVwCollection env cid cname users log tok,
        ∀ nm, r.mm_username = some nm → nm ∉ env.excluded) ∧
    (∀ (env : OutlineEnv) (cid cname : Str) (users : Dict UserInfo)
        (dp ap : Str) (cur : List Str) (log : Str),
      ∀ r ∈ (ensureUsersInOutlineCollection env cid cname users dp ap cur log).1,
        ∀ nm, r.mm_username = some nm → nm ∉ env.excluded) ∧
    (∀ (env : AuthentikEnv) (mm : MMEnv) (matrix : Matrix)
        (am : Dict (List MMUser)) (etk : Dict Str) (g : AuthGroup)
        (u : AuthUser) (ctx : Str),
      u ∈ g.users_obj → u.username ∈ env.excluded →
      (∀ v ∈ g.users_obj, lowerStr v.email = lowerStr u.email →
        v.username ∈ env.excluded) →
      removeUserFromAuthentikGroup env g.pk g.name u.pk (lowerStr u.email) ctx ∉
        authentikDiffGroup env mm matrix am etk g) ∧
    (∀ (env : NocodbEnv) (mm : MMEnv) (matrix : Matrix)
        (am : Dict (List MMUser)) (base : NocoBase) (k b : Str) (u : NocoUser),
      mapNocoBaseToEntity base.title matrix = some (k, b) →
      k ≠ [] → b ≠ [] →
      u ∈ env.list_base_users base.id →
      lowerStr u.email ≠ [] →
      lowerStr u.email ∉
        ((getMMUsersForEntity mm b ((dictLookup matrix k).getD {}) am).1.map
          (fun p => lowerStr p.1)) →
      removeUserFromNocodbBase env base.id base.title u.id (lowerStr u.email) b ∈
        nocodbDiffBase env mm matrix am base) ∧
    (∀ (env : OutlineEnv) (mm : MMEnv) (matrix : Matrix)
        (am : Dict (List MMUser)) (coll : OutlineCollection) (k b : Str)
        (u : OutlineMember),
      mapOutlineCollToEntity coll.name matrix = some (k, b) →
      k ≠ [] → b ≠ [] →
      u ∈ env.get_collection_members_with_details coll.id →
      lowerStr u.email ≠ [] →
      lowerStr u.email ∉
        ((getMMUsersForEntity mm b ((dictLookup matrix k).getD {}) am).1.map
          (fun p => lowerStr p.1)) →
      removeUserFromOutlineCollection env coll.id coll.name u.id (lowerStr u.email) b ∈
        outlineDiffColl env mm matrix am coll) := by
  refine ⟨?_, ?_, ?_, ?_, ?_, ?_, ?_, ?_⟩
  · intro env gpk gname users m log cur r hr
    unfold ensureUsersInAuthentikGroup at hr
    split at hr
    · simp at hr
    · exact ensureUsersAuthAux_excluded users r hr
  · intro env bid btitle users dp ap cmap log r hr
    unfold ensureUsersInNocodbBase at hr
    split at hr
    · simp at hr
    · exact ensureUsersNocoAux_excluded users r hr
  · intro env list_id lname users log r hr
    unfold ensureContactsInBrevoList at hr
    split at hr
    · simp at hr
    · exact ensureContactsBrevoAux_excluded users r hr
  · intro env cid cname users log tok r hr
    unfold ensureUsersInvitedToVwCollection at hr
    split at hr
    · simp at hr
    · split at hr
      · intro nm hnm
        rcases List.mem_singleton.1 hr with rfl
        cases hnm
      · exact ensureVwAux_excluded users r hr
  · intro env cid cname users dp ap cur log r hr
    unfold ensureUsersInOutlineCollection at hr
    split at hr
    · simp at hr
    · exact ensureUsersOutlineAux_excluded users r hr
  · intro env mm matrix am etk g u ctx hu hex hall hmem
    rcases authentikDiffGroup_subjects env mm matrix am etk g _ hmem with
      ⟨v, hv, hvex, hemail, _⟩ | ⟨nm, hnm, _⟩
    · obtain ⟨he, _⟩ := removeAuthRec_fields env g.pk g.name u.pk (lowerStr u.email) ctx
      rw [he] at hemail
      have : lowerStr v.email = lowerStr u.email :=
        (Option.some_injective _ hemail.symm)
      exact hvex (hall v hv this)
    · obtain ⟨_, hn⟩ := removeAuthRec_fields env g.pk g.name u.pk (lowerStr u.email) ctx
      rw [hn] at hnm
      cases hnm
  · exact nocodbDiffBase_removes
  · exact outlineDiffColl_removes

/-- Witness for the amended C1: concrete runs of every part — the ensure
records produced for bob/alice never name an excluded user, the excluded
`xuser` is not removed by the identity-provider differential pass, and the
very same `xuser` *is* removed by both the database and the documentation
differential passes. -/
theorem c1_exclusion_partially_enforced_witness :
    "bob".toList ∉ c1AuthEnv.excluded ∧
    "bob".toList ∉ c1Env.excluded ∧
    "bob".toList ∉ c4Env.excluded ∧
    "alice".toList ∉ c7Env.excluded ∧
    "bob".toList ∉ c1OlEnv.excluded ∧
    removeUserFromAuthentikGroup c1AuthEnv "g1".toList "grp-orion".toList
        "p9".toList (lowerStr "x@y".toList) "orion".toList ∉
      authentikDiffGroup c1AuthEnv c3MM c3Matrix c3Members [] c1AuthGroup ∧
    removeUserFromNocodbBase c1Env "b1".toList "db-orion".toList
        "u7".toList (lowerStr "x@y".toList) "orion".toList ∈
      nocodbDiffBase c1Env c1MM c1Matrix c1Members c1Base ∧
    removeUserFromOutlineCollection c1OlEnv "ol1".toList "doc-orion".toList
        "ou7".toList (lowerStr "x@y".toList) "orion".toList ∈
      outlineDiffColl c1OlEnv c1MM c1OlMatrix c1Members c1Coll := by
  obtain ⟨h1, h2, h3, h4, h5, h6, h7, h8⟩ := c1_exclusion_partially_enforced
  refine ⟨?_, ?_, ?_, ?_, ?_, ?_, ?_, ?_⟩
  · exact h1 c1AuthEnv "g1".toList "grp-orion".toList [bobMM] [] "orion".toList []
      { service := "AUTHENTIK".toList
        target_resource_name := "grp-orion".toList
        mm_username := some "bob".toList
        mm_user_email := some "b@x".toList
        mm_channel_display_name := some "orion".toList
        status := SKIPPED
        action := "SKIPPED_USER_NOT_IN_AUTHENTIK_FOR_ENSURE".toList
        error_message := some "User email b@x not in Authentik.".toList }
      (by decide) "bob".toList (by decide)
  · exact h2 c1Env "b1".toList "db-orion".toList
      [("b@x".toList, ⟨"bob".toList, "u1".toList, false⟩)]
      "viewer".toList "owner".toList [] "orion".toList
      { service := "NOCODB".toList
        target_resource_name := "db-orion".toList
        mm_username := some "bob".toList
        mm_user_email := some "b@x".toList
        mm_channel_display_name := some "orion".toList
        status := SUCCESS
        action := "NOCODB_USER_INVITED_AS_VIEWER_DM_SKIPPED_NO_URL".toList }
      (by decide) "bob".toList (by decide)
  · exact h3 c4Env 7 "mm_orion".toList [bobMM] "log".toList
      { service := "BREVO".toList
        target_resource_name := "mm_orion".toList
        mm_username := some "bob".toList
        mm_user_email := some "b@x".toList
        mm_channel_display_name := some "log".toList
        status := SUCCESS
        action := "USER_ENSURED_IN_BREVO_LIST".toList }
      (by decide) "bob".toList (by decide)
  · exact h4 c7Env "col1".toList "Shared - X".toList
      [("alice@x".toList, ⟨"alice".toList, "m1".toList, false⟩)]
      "log".toList "tok".toList
      { service := "VAULTWARDEN".toList
        target_resource_name := "Shared - X".toList
        mm_username := some "alice".toList
        mm_user_email := some "alice@x".toList
        mm_channel_display_name := some "log".toList
        status := SUCCESS
        action := "USER_INVITED_TO_VW_COLLECTION_AND_DM_SENT".toList }
      (by decide) "alice".toList (by decide)
  · exact h5 c1OlEnv "ol1".toList "doc-orion".toList
      [("b@x".toList, ⟨"bob".toList, "u1".toList, false⟩)]
      "read".toList "read_write".toList [] "orion".toList
      { service := "OUTLINE".toList
        target_resource_name := "doc-orion".toList
        mm_username := some "bob".toList
        mm_user_email := some "b@x".toList
        mm_channel_display_name := some "orion".toList
        status := SKIPPED
        action := "SKIPPED_USER_NOT_IN_OUTLINE_FOR_ENSURE".toList
        error_message := some "User email b@x not found in Outline.".toList }
      (by decide) "bob".toList (by decide)
  · exact h6 c1AuthEnv c3MM c3Matrix c3Members [] c1AuthGroup c1XAuth
      "orion".toList (by decide) (by decide) (by decide)
  · exact h7 c1Env c1MM c1Matrix c1Members c1Base "K".toList "orion".toList
      c1NocoUser (by decide) (by decide) (by decide) (by decide) (by decide)
      (by decide)
  · exact h8 c1OlEnv c1MM c1OlMatrix c1Members c1Coll "K".toList "orion".toList
      ⟨"ou7".toList, "x@y".toList⟩ (by decide) (by decide) (by decide) (by decide)
      (by decide) (by decide)

/-- Counterexample to C2.  With the first reconciler raising, the orchestrator
loop neither appends a synthetic FAILURE record nor continues with the second
reconciler: the whole call ends in the propagated exception, and the second
reconciler's records never appear. -/
theorem c2_counterexample :
    orchestrateServiceLoop
        [⟨true, false, Except.error "boom".toList⟩,
         ⟨true, false, Except.ok [c2Rec]⟩] =
      Except.error "boom".toList ∧
    orchestrateServiceLoop
        [⟨true, false, Except.error "boom".toList⟩,
         ⟨true, false, Except.ok [c2Rec]⟩] ≠
      Except.ok [c2Rec] := by
  exact ⟨rfl, fun h => by cases h⟩

/-- **C2** as amended.  An unexpected exception raised by a configured,
non-skipped reconciler escapes `orchestrate_group_synchronization`: after any
prefix of well-behaved (or skipped/unconfigured) reconcilers, the loop result
is that exception — no synthetic FAILURE record is appended and the remaining
reconcilers are not run. -/
theorem c2_exception_escapes_orchestrator (pre post : List ServiceRun)
    (s : ServiceRun) (e : Str)
    (hs1 : s.has_client = true) (hs2 : s.skipped = false)
    (hs3 : s.run = Except.error e)
    (hpre : ∀ p ∈ pre, p.has_client = true → p.skipped = false →
      ∃ rs, p.run = Except.ok rs) :
    orchestrateServiceLoop (pre ++ s :: post) = Except.error e := by
  induction pre with
  | nil =>
    rw [List.nil_append]
    unfold orchestrateServiceLoop
    rw [if_pos ⟨hs1, by rw [hs2]; exact Bool.false_ne_true⟩, hs3]
  | cons p t ih =>
    rw [List.cons_append]
    unfold orchestrateServiceLoop
    by_cases hp : p.has_client ∧ ¬ p.skipped
    · rw [if_pos hp]
      obtain ⟨rs, hrs⟩ := hpre p (List.mem_cons_self _ _) hp.1 (by
        rcases h : p.skipped
        · rfl
        · exact absurd h hp.2)
      rw [hrs]
      rw [ih fun q hq => hpre q (List.mem_cons_of_mem _ hq)]
    · rw [if_neg hp]
      exact ih fun q hq => hpre q (List.mem_cons_of_mem _ hq)

/-- Witness for the amended C2: one healthy reconciler, then a raising one,
then one more that is never reached. -/
theorem c2_exception_escapes_orchestrator_witness :
    orchestrateServiceLoop
        [⟨true, false, Except.ok []⟩,
         ⟨true, false, Except.error "boom".toList⟩,
         ⟨true, false, Except.ok [c2Rec]⟩] =
      Except.error "boom".toList := by
  exact c2_exception_escapes_orchestrator
    [⟨true, false, Except.ok []⟩]
    [⟨true, false, Except.ok [c2Rec]⟩]
    ⟨true, false, Except.error "boom".toList⟩ "boom".toList
    rfl rfl rfl
    (by
      intro p hp _ _
      rcases List.mem_singleton.1 hp with rfl
      exact ⟨[], rfl⟩)

end CM
